import Mathlib

/-!
The kvstor program: an in-memory key/value store with time-to-live

A shallow embedding of `kvstor.go`.

* The store `KVStor` is the Go map `payload`; the mutex is not represented: every
  method body runs under the lock from its first to its last statement, so each
  method is one atomic state transformer `KVStor → KVStor × result`.
* `time.Now().Unix()` converted to `uint64` is an explicit argument `now`.
* `uint64` values are natural numbers; the one place where the source adds two of
  them, `rec.Timestamp + rec.TimeToLive`, is reduced modulo `2 ^ 64`.
-/

namespace Kvstor

/-- The constant `DefaultRecordTTL`. -/
def DefaultRecordTTL : Nat := 3600

/-- The number of `uint64` values. -/
def uint64Size : Nat := 2 ^ 64

/-- The struct `Record`. `Value` is the byte slice `[]byte(value)`; a Go string is
a byte sequence and `[]byte(value)` / `string(rec.Value)` copy the same bytes, so
the field holds the string itself. `KeySize`, `ValueSize` and `CheckSum` are never
assigned by the source and keep their zero values. -/
structure Record where
  Key : String
  Value : String
  Timestamp : Nat
  TimeToLive : Nat
  KeySize : Nat
  ValueSize : Nat
  CheckSum : List Nat
  deriving DecidableEq, Repr

/-- The struct `KVStor`: the map `payload` from key to record. -/
structure KVStor where
  payload : AList (fun _ : String => Record)

/-- Equality of stores is decided on their entry lists. -/
instance : DecidableEq KVStor := fun a b =>
  decidable_of_iff (a.payload.entries = b.payload.entries)
    ⟨fun h => by cases a; cases b; congr; exact AList.ext h, fun h => h ▸ rfl⟩

/-- The constructor `NewKVStor`: an empty map. -/
def NewKVStor : KVStor := ⟨∅⟩

/-- The condition `(rec.Timestamp + rec.TimeToLive) < uint64(time.Now().Unix())`
shared by `AutoCleanObsolete` and `Get`; the sum is a `uint64` sum. -/
def obsolete (rec : Record) (now : Nat) : Bool :=
  decide ((rec.Timestamp + rec.TimeToLive) % uint64Size < now)

/-- The method `Delete`: the error is `none` for `nil` and `some msg` for
`errors.New(msg)`. -/
def KVStor.Delete (k : KVStor) (key : String) : KVStor × Option String :=
  match k.payload.lookup key with
  | some _ => (⟨k.payload.erase key⟩, none)
  | none => (k, some "no such key")

/-- The method `Get`, reading the clock as `now`. -/
def KVStor.Get (k : KVStor) (key : String) (now : Nat) : KVStor × (String × Bool) :=
  match k.payload.lookup key with
  | none => (k, ("", false))
  | some rec =>
    if obsolete rec now then (⟨k.payload.erase key⟩, ("", false))
    else (k, (rec.Value, true))

/-- The method `Set`, reading the clock as `now`. -/
def KVStor.Set (k : KVStor) (key : String) (value : String) (ttl : Nat) (now : Nat) : KVStor :=
  ⟨k.payload.insert key
    { Key := key, Value := value, Timestamp := now, TimeToLive := ttl,
      KeySize := 0, ValueSize := 0, CheckSum := [] }⟩

/-- The body of the `range` loop of `AutoCleanObsolete` for one entry: `key` is
the entry reached and `now` the clock read in that iteration. An entry that is no
longer in the map is not produced by `range`. -/
def cleanStep (k : KVStor) (visit : String × Nat) : KVStor :=
  match k.payload.lookup visit.1 with
  | none => k
  | some rec => if obsolete rec visit.2 then ⟨k.payload.erase visit.1⟩ else k

/-- The `range` loop of `AutoCleanObsolete` over the entries in the order
`visits`, each paired with the clock reading of its iteration. -/
def cleanLoop (visits : List (String × Nat)) (k : KVStor) : KVStor :=
  visits.foldl cleanStep k

/-- One pass of `AutoCleanObsolete` (the statements between `k.lock.Lock()` and
`k.lock.Unlock()`) during which the clock reads `now` throughout: the loop
reaches every key of the map once. -/
def KVStor.AutoCleanObsolete (k : KVStor) (now : Nat) : KVStor :=
  cleanLoop (k.payload.keys.map (fun key => (key, now))) k

/-! ## The protocol handler

Library functions the handler calls are given by their documented behaviour:
`unicode.IsSpace`, `strings.Fields`, `strconv.ParseUint` / `strconv.ParseInt`
in base 10 with 64 bits, and the verbs `%s`, `%d`, `%v` of `fmt.Sprintf`.
-/

/-- The function `usage`. -/
def usage : String :=
  "Usage: get <key> | set <key> <value> [TTL in seconds] | delete <key>\n"

/-- Go's `unicode.IsSpace`: the code points with the White_Space property. -/
def isSpace (c : Char) : Bool :=
  let n := c.toNat
  (0x09 ≤ n && n ≤ 0x0D) || n == 0x20 || n == 0x85 || n == 0xA0 || n == 0x1680 ||
  (0x2000 ≤ n && n ≤ 0x200A) || n == 0x2028 || n == 0x2029 || n == 0x202F ||
  n == 0x205F || n == 0x3000

/-- The scan of `strings.Fields`: `cur` is the field being read. -/
def fieldsGo : List Char → List Char → List String
  | [], cur => if cur.isEmpty then [] else [String.mk cur]
  | c :: cs, cur =>
    if isSpace c then
      if cur.isEmpty then fieldsGo cs [] else String.mk cur :: fieldsGo cs []
    else fieldsGo cs (cur ++ [c])

/-- Go's `strings.Fields`: the maximal runs of non-space characters, in order. -/
def Fields (s : String) : List String := fieldsGo s.data []

/-- The two errors of `strconv`: `ErrSyntax` and `ErrRange`. -/
inductive NumError where
  | ErrSyntax
  | ErrRange
  deriving DecidableEq, Repr

/-- The digit loop of `strconv.ParseUint(s, 10, 64)` with accumulator `n`. -/
def parseUintLoop : List Char → Nat → Nat × Option NumError
  | [], n => (n, none)
  | c :: cs, n =>
    if '0' ≤ c ∧ c ≤ '9' then
      let d := c.toNat - '0'.toNat
      if n ≥ (uint64Size - 1) / 10 + 1 then (uint64Size - 1, some NumError.ErrRange)
      else
        let n10 := n * 10 % uint64Size
        let n1 := (n10 + d) % uint64Size
        if n1 < n10 ∨ n1 > uint64Size - 1 then (uint64Size - 1, some NumError.ErrRange)
        else parseUintLoop cs n1
    else (0, some NumError.ErrSyntax)

/-- Go's `strconv.ParseUint(s, 10, 64)`. -/
def ParseUint (s : List Char) : Nat × Option NumError :=
  if s.isEmpty then (0, some NumError.ErrSyntax) else parseUintLoop s 0

/-- Go's `strconv.ParseInt(s, 10, 64)`: the value returned together with the error. -/
def ParseInt (s : String) : Int × Option NumError :=
  match s.data with
  | [] => (0, some NumError.ErrSyntax)
  | c :: cs =>
    let neg := decide (c = '-')
    let body := if c = '+' ∨ c = '-' then cs else c :: cs
    match ParseUint body with
    | (_, some NumError.ErrSyntax) => (0, some NumError.ErrSyntax)
    | (un, _) =>
      let cutoff : Nat := 2 ^ 63
      if !neg && decide (un ≥ cutoff) then ((cutoff : Int) - 1, some NumError.ErrRange)
      else if neg && decide (un > cutoff) then (-(cutoff : Int), some NumError.ErrRange)
      else (if neg then -(un : Int) else (un : Int), none)

/-- The conversion `uint64(ttl)` of an `int64`. -/
def toUint64 (i : Int) : Nat := (i % (uint64Size : Int)).toNat

/-- What handling one request line leaves behind: the store, the arguments of the
`conn.Write` calls made (in order), and the value of the panic that ended the
handling, if any. -/
structure Outcome where
  store : KVStor
  writes : List String
  failure : Option String
  deriving DecidableEq

/-- The function `writeUsageOrHandleUnexpectedError`: `err` is its argument and
`werr` the error returned by its `conn.Write`. The result is the list of writes
made and the panic value. -/
def writeUsageOrHandleUnexpectedError (err : Option String) (werr : Option String) :
    List String × Option String :=
  match err with
  | some e => ([], some e)
  | none =>
    match werr with
    | some _ => ([usage], some "something weird has happened.")
    | none => ([usage], none)

/-- The statement pair `_, err := conn.Write(payload)`;
`if err != nil { writeUsageOrHandleUnexpectedError(conn, err) }`. -/
def writeResponse (k : KVStor) (payload : String) (werr : Option String) : Outcome :=
  match werr with
  | none => ⟨k, [payload], none⟩
  | some e => ⟨k, [payload] ++ (writeUsageOrHandleUnexpectedError (some e) none).1,
      (writeUsageOrHandleUnexpectedError (some e) none).2⟩

/-- The loop `for i, v := range strings.Fields(request) { fields[i] = v }`;
`none` is the run-time panic of an index outside the slice. -/
def fillFields : List String → Nat → List String → Option (List String)
  | fields, _, [] => some fields
  | fields, i, v :: vs =>
    if i < fields.length then fillFields (fields.set i v) (i + 1) vs else none

/-- The body of the scanner loop of `HandleRequest` for one line `request`: `now`
is the clock read by the store method called and `werr` the error returned by the
`conn.Write` of this line (`none` when the write succeeds). -/
def handleLine (request : String) (now : Nat) (werr : Option String) (k : KVStor) : Outcome :=
  match fillFields ["", "", "", ""] 0 (Fields request) with
  | none => ⟨k, [], some "runtime error: index out of range [4] with length 4"⟩
  | some fields =>
    let action := fields.getD 0 ""
    let key := fields.getD 1 ""
    if action = "set" then
      let value := fields.getD 2 ""
      let ttl : Int :=
        if fields.getD 3 "" ≠ "" then (ParseInt (fields.getD 3 "")).1
        else (DefaultRecordTTL : Int)
      writeResponse (k.Set key value (toUint64 ttl) now)
        ("set key: \x1b[35m" ++ key ++ "\x1b[0m with value \x1b[35m" ++ value ++
          "\x1b[0m and TTL \x1b[35m" ++ toString ttl ++ "s\x1b[0m\n") werr
    else if action = "get" then
      match k.Get key now with
      | (k1, (value, true)) =>
        writeResponse k1
          ("key: \x1b[35m" ++ key ++ "\x1b[0m has value \x1b[35m" ++ value ++ "\x1b[0m\n") werr
      | (k1, (_, false)) =>
        writeResponse k1
          ("key: \x1b[35m" ++ key ++ "\x1b[0m doesnt't exist or expired\n") werr
    else if action = "delete" then
      match k.Delete key with
      | (k1, some err) => writeResponse k1 ("deletion error: " ++ err ++ "\n") werr
      | (k1, none) => writeResponse k1 ("key: \x1b[35m" ++ key ++ "\x1b[0m was deleted\n") werr
    else
      ⟨k, (writeUsageOrHandleUnexpectedError none werr).1,
        (writeUsageOrHandleUnexpectedError none werr).2⟩

/-! ## The scanner loop

`HandleRequest` reads the connection through `bufio.NewScanner(conn)` with the
default split function `bufio.ScanLines` and the default buffer limit
`bufio.MaxScanTokenSize`: the stream is cut at every `\n`, one trailing `\r` is
dropped from each line, and `scanner.Scan()` returns false, ending the loop, when
the bytes up to the next `\n` do not fit the buffer. The function runs as
`go HandleRequest(conn, kvstor)` in `main`; nothing in the program recovers a
panic.
-/

/-- The constant `bufio.MaxScanTokenSize`. -/
def MaxScanTokenSize : Nat := 64 * 1024

/-- The helper `dropCR` of `bufio.ScanLines`: one trailing `\r` is dropped. -/
def dropCR (raw : String) : String :=
  if raw.data.getLast? = some '\r' then String.mk raw.data.dropLast else raw

/-- The cut of `bufio.ScanLines` over a whole stream, `cur` being the line read so
far: every `\n` ends a line, and bytes left at the end of the stream form a last
line. The lines are returned as read, before `dropCR`. -/
def splitLinesGo : List Char → List Char → List String
  | [], cur => if cur.isEmpty then [] else [String.mk cur]
  | c :: cs, cur =>
    if c = '\n' then String.mk cur :: splitLinesGo cs [] else splitLinesGo cs (cur ++ [c])

/-- The lines of the stream a peer sends before closing its side. -/
def scanLines (stream : String) : List String := splitLinesGo stream.data []

/-- One turn of `for scanner.Scan() { ... }` on the line `raw` (the bytes up to the
next `\n` or the end of the stream). `scanner.Scan()` returns true only when the
line is shorter than `MaxScanTokenSize` bytes; the body then runs on
`scanner.Text()`, the line after `dropCR`. `none` is `Scan()` returning false: the
body does not run and the loop is over. -/
def scanTurn (raw : String) (now : Nat) (werr : Option String) (k : KVStor) :
    Option Outcome :=
  if raw.utf8ByteSize < MaxScanTokenSize then some (handleLine (dropCR raw) now werr k)
  else none

/-- The loop `for scanner.Scan() { ... }` over the lines of the stream from line
number `i` on: `clock i` is the clock read while line `i` is handled and `werr i`
the error returned by the `conn.Write` of line `i`. The loop ends when the lines
are used up, when `Scan()` returns false, or with a panic of the body. -/
def scanLoop : List String → Nat → (Nat → Nat) → (Nat → Option String) → KVStor → Outcome
  | [], _, _, _, k => ⟨k, [], none⟩
  | raw :: rest, i, clock, werr, k =>
    match scanTurn raw (clock i) (werr i) k with
    | none => ⟨k, [], none⟩
    | some o =>
      match o.failure with
      | some e => ⟨o.store, o.writes, some e⟩
      | none =>
        let o2 := scanLoop rest (i + 1) clock werr o.store
        ⟨o2.store, o.writes ++ o2.writes, o2.failure⟩

/-- What a call of `HandleRequest` leaves behind: the store, the arguments of the
`conn.Write` calls made, whether `conn.Close()` was called, and the value of the
panic with which the call ended, if any. `HandleRequest` is the function of its
goroutine and no caller recovers, so such a panic ends the process. -/
structure Session where
  store : KVStor
  writes : List String
  closed : Bool
  failure : Option String
  deriving DecidableEq

/-- The function `HandleRequest` on the whole stream of one connection. The
deferred `conn.Close()` runs when the function returns and when it panics. -/
def HandleRequest (stream : String) (clock : Nat → Nat) (werr : Nat → Option String)
    (k : KVStor) : Session :=
  let o := scanLoop (scanLines stream) 0 clock werr k
  { store := o.store, writes := o.writes, closed := true, failure := o.failure }

/-! ## Vocabulary of the claims about the TTL field -/

/-- A non-empty run of the ASCII digits `0` to `9`. -/
def isDigits (cs : List Char) : Bool :=
  !cs.isEmpty && cs.all (fun c => decide ('0' ≤ c ∧ c ≤ '9'))

/-- The number a run of digits denotes in base ten, continuing from `n`. -/
def decimalValue (cs : List Char) (n : Nat) : Nat :=
  cs.foldl (fun acc c => acc * 10 + (c.toNat - '0'.toNat)) n

/-- A decimal number as a TTL field can spell it: an optional sign `+` or `-`
followed by a non-empty run of digits. -/
def isDecimalNumber (x : String) : Bool :=
  match x.data with
  | [] => false
  | c :: cs => if c = '+' ∨ c = '-' then isDigits cs else isDigits (c :: cs)

/-- The integer a decimal number denotes. -/
def decimalInt (x : String) : Int :=
  match x.data with
  | [] => 0
  | c :: cs =>
    if c = '-' then -((decimalValue cs 0 : Nat) : Int)
    else if c = '+' then ((decimalValue cs 0 : Nat) : Int)
    else ((decimalValue (c :: cs) 0 : Nat) : Int)

/-- The line `s` followed by `n` spaces. -/
def padded (s : String) (n : Nat) : String := s ++ String.mk (List.replicate n ' ')

/-! ## Store lemmas -/

theorem Set_lookup_self (k : KVStor) (key value : String) (ttl now : Nat) :
    (k.Set key value ttl now).payload.lookup key =
      some { Key := key, Value := value, Timestamp := now, TimeToLive := ttl,
             KeySize := 0, ValueSize := 0, CheckSum := [] } := by
  simp [KVStor.Set, AList.lookup_insert]

theorem Set_lookup_other (k : KVStor) (key value : String) (ttl now : Nat) (key' : String)
    (h : key' ≠ key) :
    (k.Set key value ttl now).payload.lookup key' = k.payload.lookup key' := by
  simp [KVStor.Set, AList.lookup_insert_ne h]

/-- The result of `Get` depends on the store only through the record of the key. -/
theorem Get_result_congr (k k' : KVStor) (key : String) (now : Nat)
    (h : k'.payload.lookup key = k.payload.lookup key) :
    (k'.Get key now).2 = (k.Get key now).2 := by
  unfold KVStor.Get
  rw [h]
  cases k.payload.lookup key with
  | none => rfl
  | some rec => dsimp only; split <;> rfl

theorem obsolete_iff (rec : Record) (now : Nat) :
    obsolete rec now = true ↔ (rec.Timestamp + rec.TimeToLive) % uint64Size < now := by
  simp [obsolete]

/-- `Get` right after `Set`, in terms of the wrapped sum. -/
theorem Get_Set_eq (k : KVStor) (key value : String) (ttl s now : Nat) :
    (k.Set key value ttl s).Get key now =
      if (s + ttl) % uint64Size < now
      then (⟨(k.Set key value ttl s).payload.erase key⟩, ("", false))
      else (k.Set key value ttl s, (value, true)) := by
  unfold KVStor.Get
  rw [Set_lookup_self]
  simp [obsolete]

/-- The record a key has after one iteration of the sweep loop. -/
theorem cleanStep_lookup (k : KVStor) (visit : String × Nat) (key : String) :
    (cleanStep k visit).payload.lookup key =
      if key = visit.1 then (k.payload.lookup key).filter (fun rec => !obsolete rec visit.2)
      else k.payload.lookup key := by
  obtain ⟨a, t⟩ := visit
  unfold cleanStep
  dsimp only
  by_cases hk : key = a
  · subst hk
    rw [if_pos rfl]
    cases hl : k.payload.lookup key with
    | none => simp [hl]
    | some rec =>
      by_cases ho : obsolete rec t = true
      · simp [ho, AList.lookup_erase, Option.filter]
      · simp [ho, hl, Option.filter]
  · rw [if_neg hk]
    cases hl : k.payload.lookup a with
    | none => rfl
    | some rec =>
      by_cases ho : obsolete rec t = true
      · simp [ho, AList.lookup_erase_ne hk]
      · simp [ho]

theorem filter_live_idem (o : Option Record) (now : Nat) :
    (o.filter (fun rec => !obsolete rec now)).filter (fun rec => !obsolete rec now) =
      o.filter (fun rec => !obsolete rec now) := by
  cases o with
  | none => rfl
  | some rec => by_cases ho : obsolete rec now = true <;> simp [Option.filter, ho]

/-- The record a key has after the sweep loop has visited the keys `ks` in this
order, the clock reading `now` throughout. -/
theorem cleanLoop_lookup (ks : List String) (now : Nat) (k : KVStor) (key : String) :
    (cleanLoop (ks.map (fun key => (key, now))) k).payload.lookup key =
      if key ∈ ks then (k.payload.lookup key).filter (fun rec => !obsolete rec now)
      else k.payload.lookup key := by
  induction ks generalizing k with
  | nil => simp [cleanLoop]
  | cons a ks ih =>
    have hstep : cleanLoop (List.map (fun key => (key, now)) (a :: ks)) k =
        cleanLoop (List.map (fun key => (key, now)) ks) (cleanStep k (a, now)) := by
      simp [cleanLoop]
    rw [hstep, ih, cleanStep_lookup]
    by_cases h1 : key = a
    · subst h1
      by_cases h2 : key ∈ ks <;> simp [h2, filter_live_idem]
    · by_cases h2 : key ∈ ks <;> simp [h1, h2]

/-- With at most four fields the fill loop succeeds, and slot 0 holds the first
field, or the empty string when there is none. -/
theorem fillFields_le_four (fs : List String) (h : fs.length ≤ 4) :
    ∃ fields, fillFields ["", "", "", ""] 0 fs = some fields ∧
      fields.getD 0 "" = fs.headD "" := by
  match fs, h with
  | [], _ => exact ⟨_, rfl, rfl⟩
  | [a], _ => exact ⟨_, rfl, rfl⟩
  | [a, b], _ => exact ⟨_, rfl, rfl⟩
  | [a, b, c], _ => exact ⟨_, rfl, rfl⟩
  | [a, b, c, d], _ => exact ⟨_, rfl, rfl⟩
  | _ :: _ :: _ :: _ :: _ :: _, h => simp at h

/-! ## Set followed by Get -/

/-- C1, as stated, fails: a TTL of `2 ^ 64 - 1` is positive, yet `Get` in the very
second of the `Set` (`d = 0 < t`) reports not-found, because the sum
`Timestamp + TimeToLive` wraps around. -/
theorem set_get_any_ttl_counterexample :
    0 < 2 ^ 64 - 1 ∧ 2 ^ 64 - 1 < uint64Size ∧ 1700000000 + 0 < uint64Size ∧ 0 < 2 ^ 64 - 1 ∧
    ((NewKVStor.Set "a" "1" (2 ^ 64 - 1) 1700000000).Get "a" (1700000000 + 0)).2
      = ("", false) := by
  decide

/-- C1, amended: when `Timestamp + TimeToLive` does not wrap (`s + t < 2 ^ 64`),
`Set key value t` at time `s` followed by `Get key` at time `s + d` with `d < t`
returns `(value, true)` and leaves the store as `Set` made it; the same holds on
every store whose record for `key` is still the one `Set` wrote. -/
theorem set_get_live (k : KVStor) (key value : String) (t s d : Nat)
    (hsum : s + t < uint64Size) (hd : d < t) :
    (k.Set key value t s).Get key (s + d) = (k.Set key value t s, (value, true)) ∧
    ∀ k' : KVStor,
      k'.payload.lookup key = (k.Set key value t s).payload.lookup key →
      (k'.Get key (s + d)).2 = (value, true) := by
  have hget : (k.Set key value t s).Get key (s + d) = (k.Set key value t s, (value, true)) := by
    rw [Get_Set_eq, Nat.mod_eq_of_lt hsum, if_neg (by omega)]
  refine ⟨hget, fun k' hk' => ?_⟩
  rw [Get_result_congr _ _ key (s + d) hk', hget]

theorem set_get_live_witness :
    ((NewKVStor.Set "key1" "value1" 10 100).Get "key1" (100 + 0)).2 = ("value1", true) :=
  congrArg Prod.snd
    (set_get_live NewKVStor "key1" "value1" 10 100 0 (by decide) (by decide)).1

/-- C2, as stated, fails at `d = t`: the record set with TTL 10 at time 100 is
still returned at time 110. -/
theorem set_get_at_ttl_counterexample :
    0 < 10 ∧ 10 ≥ 10 ∧
    ((NewKVStor.Set "a" "1" 10 100).Get "a" (100 + 10)).2 = ("1", true) := by
  decide

/-- C2, amended: `Set key value t` at time `s` followed by `Get key` at the clock
value `s + d` with `d ≥ t` returns not-found (and removes the key) when `d > t`,
and still returns `(value, true)` when `d = t`: a record is live iff
`now ≤ Timestamp + TimeToLive`. -/
theorem set_get_expired (k : KVStor) (key value : String) (t s d : Nat)
    (hclock : s + d < uint64Size) (hd : t ≤ d) :
    (k.Set key value t s).Get key (s + d) =
      if t < d then (⟨(k.Set key value t s).payload.erase key⟩, ("", false))
      else (k.Set key value t s, (value, true)) := by
  rw [Get_Set_eq, Nat.mod_eq_of_lt (by omega)]
  by_cases h : t < d
  · rw [if_pos (by omega), if_pos h]
  · rw [if_neg (by omega), if_neg h]

theorem set_get_expired_witness :
    (NewKVStor.Set "key2" "value2" 1 100).Get "key2" (100 + 2) =
      if 1 < 2 then (⟨(NewKVStor.Set "key2" "value2" 1 100).payload.erase "key2"⟩, ("", false))
      else (NewKVStor.Set "key2" "value2" 1 100, ("value2", true)) :=
  set_get_expired NewKVStor "key2" "value2" 1 100 2 (by decide) (by decide)

/-! ## Delete -/

/-- C3: on a store in which `key` is present, `Delete key` returns no error and
yields the map with `key` erased (so `key` is absent and every other key keeps its
record), and `Delete key` on the resulting store returns the error "no such key"
and changes nothing. -/
theorem delete_existing_once (k : KVStor) (key : String) (h : key ∈ k.payload) :
    k.Delete key = (⟨k.payload.erase key⟩, none) ∧
    key ∉ (k.Delete key).1.payload ∧
    (∀ key', key' ≠ key → (k.Delete key).1.payload.lookup key' = k.payload.lookup key') ∧
    (k.Delete key).1.Delete key = ((k.Delete key).1, some "no such key") := by
  obtain ⟨rec, hrec⟩ := Option.isSome_iff_exists.mp (AList.lookup_isSome.mpr h)
  have h1 : k.Delete key = (⟨k.payload.erase key⟩, none) := by
    simp [KVStor.Delete, hrec]
  refine ⟨h1, ?_, ?_, ?_⟩
  · rw [h1]; simp [AList.mem_erase]
  · intro key' hne
    rw [h1]; exact AList.lookup_erase_ne hne
  · rw [h1]
    simp [KVStor.Delete, AList.lookup_erase]

theorem delete_existing_once_witness :
    (NewKVStor.Set "key6" "value6" 3600 100).Delete "key6" =
      (⟨(NewKVStor.Set "key6" "value6" 3600 100).payload.erase "key6"⟩, none) :=
  (delete_existing_once (NewKVStor.Set "key6" "value6" 3600 100) "key6" (by decide)).1

/-- C4: on a store in which `key` is not present, `Delete key` returns the error
"no such key" and the store it leaves is the store it was given. -/
theorem delete_absent (k : KVStor) (key : String) (h : key ∉ k.payload) :
    k.Delete key = (k, some "no such key") := by
  simp [KVStor.Delete, AList.lookup_eq_none.mpr h]

theorem delete_absent_witness :
    (NewKVStor.Set "a" "1" 10 100).Delete "zzz" =
      (NewKVStor.Set "a" "1" 10 100, some "no such key") :=
  delete_absent (NewKVStor.Set "a" "1" 10 100) "zzz" (by decide)

/-- C5: after `Set key value t` at any time `s`, `Delete key` succeeds, and on the
store it leaves `Get key` returns not-found at every time `now` and changes
nothing; the same answer is given by every store that has no record for `key`
(no `Set key` since). -/
theorem set_delete_get (k : KVStor) (key value : String) (t s now : Nat) :
    ((k.Set key value t s).Delete key).2 = none ∧
    ((k.Set key value t s).Delete key).1.Get key now =
      (((k.Set key value t s).Delete key).1, ("", false)) ∧
    ∀ k' : KVStor,
      k'.payload.lookup key = ((k.Set key value t s).Delete key).1.payload.lookup key →
      (k'.Get key now).2 = ("", false) := by
  have h1 : (k.Set key value t s).Delete key =
      (⟨(k.Set key value t s).payload.erase key⟩, none) := by
    simp [KVStor.Delete, Set_lookup_self]
  have h2 : ((k.Set key value t s).Delete key).1.Get key now =
      (((k.Set key value t s).Delete key).1, ("", false)) := by
    rw [h1]; simp [KVStor.Get, AList.lookup_erase]
  refine ⟨by rw [h1], h2, fun k' hk' => ?_⟩
  rw [Get_result_congr _ _ key now hk', h2]

theorem set_delete_get_witness :
    (((NewKVStor.Set "key3" "value3" 10 100).Delete "key3").1.Get "key3" 100).2 = ("", false) :=
  congrArg Prod.snd (set_delete_get NewKVStor "key3" "value3" 10 100 100).2.1

/-! ## Set replaces -/

/-- C6: `Set key v1 t1` at `s1` followed by `Set key v2 t2` at `s2` yields exactly
the store of `Set key v2 t2` at `s2` alone; `key` occurs once among the keys, its
record has value `v2`, timestamp `s2` and TTL `t2`, and every other key has the
record it had in the original store. -/
theorem set_set_replaces (k : KVStor) (key v1 v2 : String) (t1 t2 s1 s2 : Nat) :
    (k.Set key v1 t1 s1).Set key v2 t2 s2 = k.Set key v2 t2 s2 ∧
    ((k.Set key v1 t1 s1).Set key v2 t2 s2).payload.keys.count key = 1 ∧
    ((k.Set key v1 t1 s1).Set key v2 t2 s2).payload.lookup key =
      some { Key := key, Value := v2, Timestamp := s2, TimeToLive := t2,
             KeySize := 0, ValueSize := 0, CheckSum := [] } ∧
    ∀ key', key' ≠ key →
      ((k.Set key v1 t1 s1).Set key v2 t2 s2).payload.lookup key' = k.payload.lookup key' := by
  refine ⟨?_, ?_, Set_lookup_self _ _ _ _ _, fun key' hne => ?_⟩
  · simp [KVStor.Set, AList.insert_insert]
  · apply List.count_eq_one_of_mem (AList.keys_nodup _)
    rw [← AList.mem_keys]
    simp [KVStor.Set, AList.mem_insert]
  · rw [Set_lookup_other _ _ _ _ _ _ hne, Set_lookup_other _ _ _ _ _ _ hne]

theorem set_set_replaces_witness :
    ((NewKVStor.Set "b" "0" 7 90).Set "a" "1" 5 100).Set "a" "2" 10 101 =
      (NewKVStor.Set "b" "0" 7 90).Set "a" "2" 10 101 :=
  (set_set_replaces (NewKVStor.Set "b" "0" 7 90) "a" "1" "2" 5 10 100 101).1

/-! ## Eviction -/

/-- C7: when `key` is present and `Get key` at time `now` answers not-found, the
store after the call is the store before it with `key` erased: `key` is absent and
every other key keeps its record. -/
theorem get_lazy_eviction (k : KVStor) (key : String) (now : Nat)
    (hpresent : key ∈ k.payload) (hmiss : (k.Get key now).2.2 = false) :
    (k.Get key now).1 = ⟨k.payload.erase key⟩ ∧
    key ∉ (k.Get key now).1.payload ∧
    ∀ key', key' ≠ key → (k.Get key now).1.payload.lookup key' = k.payload.lookup key' := by
  obtain ⟨rec, hrec⟩ := Option.isSome_iff_exists.mp (AList.lookup_isSome.mpr hpresent)
  have h1 : (k.Get key now).1 = ⟨k.payload.erase key⟩ := by
    unfold KVStor.Get at hmiss ⊢
    rw [hrec] at hmiss ⊢
    by_cases ho : obsolete rec now = true
    · simp [ho]
    · simp [ho] at hmiss
  refine ⟨h1, ?_, fun key' hne => ?_⟩
  · rw [h1]; simp [AList.mem_erase]
  · rw [h1]; exact AList.lookup_erase_ne hne

theorem get_lazy_eviction_witness :
    ((NewKVStor.Set "key2" "value2" 1 100).Get "key2" 102).1 =
      ⟨(NewKVStor.Set "key2" "value2" 1 100).payload.erase "key2"⟩ :=
  (get_lazy_eviction (NewKVStor.Set "key2" "value2" 1 100) "key2" 102
    (by decide) (by decide)).1

/-- C8: after one pass of `AutoCleanObsolete` at time `now`, a key has a record iff
it had one before for which `Timestamp + TimeToLive < now` (the `uint64` sum of the
source) is false, and that record is the one it had: the pass removes exactly the
records for which the condition is true. -/
theorem sweep_removes_exactly_obsolete (k : KVStor) (now : Nat) (key : String) :
    (k.AutoCleanObsolete now).payload.lookup key =
      match k.payload.lookup key with
      | none => none
      | some rec =>
        if (rec.Timestamp + rec.TimeToLive) % uint64Size < now then none else some rec := by
  unfold KVStor.AutoCleanObsolete
  rw [cleanLoop_lookup]
  cases hl : k.payload.lookup key with
  | none => simp
  | some rec =>
    have hmem : key ∈ k.payload.keys :=
      AList.mem_keys.mp (AList.lookup_isSome.mp (by simp [hl]))
    rw [if_pos hmem]
    by_cases ho : (rec.Timestamp + rec.TimeToLive) % uint64Size < now
    · simp [Option.filter, obsolete, ho]
    · simp [Option.filter, obsolete, ho]

/-- C9, as stated, fails: after `Set` with TTL 0 at time 100, `Get` at the same
time 100 returns the value. -/
theorem set_ttl_zero_counterexample :
    ((NewKVStor.Set "a" "1" 0 100).Get "a" 100).2 = ("1", true) := by
  decide

/-- C9, amended: `Set key value 0` at clock value `s` followed by `Get key` at time
`now` returns not-found (and removes the key) at every strictly later time
`now > s`; at the same time `now = s` it returns `(value, true)`. -/
theorem set_ttl_zero (k : KVStor) (key value : String) (s now : Nat)
    (hs : s < uint64Size) :
    (k.Set key value 0 s).Get key now =
      if s < now then (⟨(k.Set key value 0 s).payload.erase key⟩, ("", false))
      else (k.Set key value 0 s, (value, true)) := by
  rw [Get_Set_eq, Nat.add_zero, Nat.mod_eq_of_lt hs]

theorem set_ttl_zero_witness :
    (NewKVStor.Set "a" "1" 0 100).Get "a" 101 =
      if 100 < 101 then (⟨(NewKVStor.Set "a" "1" 0 100).payload.erase "a"⟩, ("", false))
      else (NewKVStor.Set "a" "1" 0 100, ("1", true)) :=
  set_ttl_zero NewKVStor "a" "1" 100 101 (by decide)


/-! ## The expiry rule and the sweep -/

/-- The record a key has after one pass of `AutoCleanObsolete` at time `now`. -/
theorem AutoCleanObsolete_lookup (k : KVStor) (now : Nat) (key : String) :
    (k.AutoCleanObsolete now).payload.lookup key =
      (k.payload.lookup key).filter (fun rec => !obsolete rec now) := by
  unfold KVStor.AutoCleanObsolete
  rw [cleanLoop_lookup]
  by_cases hmem : key ∈ k.payload.keys
  · rw [if_pos hmem]
  · rw [if_neg hmem, AList.lookup_eq_none.mpr (fun h => hmem (AList.mem_keys.mp h))]
    rfl

/-- A record obsolete at time `s` is obsolete at every later time. -/
theorem obsolete_mono (rec : Record) (s now : Nat) (hs : s ≤ now)
    (h : obsolete rec s = true) : obsolete rec now = true := by
  rw [obsolete_iff] at h ⊢
  omega

/-- C19: after `Set key value t` at time `s`, `Get key` at time `now` returns
`(value, true)` iff `now ≤ (s + t) mod 2 ^ 64` and not-found otherwise. When
`s + t < 2 ^ 64` the key is found exactly at the times `now ≤ s + t`; when `s` and
`t` are `uint64` values with `s + t ≥ 2 ^ 64` the sum wraps below `s` and `Get` in
the second of the `Set` returns not-found; converting the `int64` value `-1`
gives such a TTL, `2 ^ 64 - 1`. -/
theorem get_after_set_wraps (k : KVStor) (key value : String) (t s now : Nat) :
    ((k.Set key value t s).Get key now).2 =
      (if now ≤ (s + t) % uint64Size then (value, true) else ("", false)) ∧
    (((k.Set key value t s).Get key now).2 = (value, true) ↔ now ≤ (s + t) % uint64Size) ∧
    (s + t < uint64Size →
      (((k.Set key value t s).Get key now).2 = (value, true) ↔ now ≤ s + t)) ∧
    (s < uint64Size → t < uint64Size → uint64Size ≤ s + t →
      ((k.Set key value t s).Get key s).2 = ("", false)) ∧
    toUint64 (-1) = uint64Size - 1 := by
  have h1 : ((k.Set key value t s).Get key now).2 =
      (if now ≤ (s + t) % uint64Size then (value, true) else ("", false)) := by
    rw [Get_Set_eq]
    by_cases h : (s + t) % uint64Size < now
    · rw [if_pos h, if_neg (by omega)]
    · rw [if_neg h, if_pos (by omega)]
  have h2 : ((k.Set key value t s).Get key now).2 = (value, true) ↔
      now ≤ (s + t) % uint64Size := by
    rw [h1]
    by_cases h : now ≤ (s + t) % uint64Size
    · simp [h]
    · simp [h]
  refine ⟨h1, h2, fun hsum => ?_, fun hs ht hwrap => ?_, by decide⟩
  · rw [h2, Nat.mod_eq_of_lt hsum]
  · rw [Get_Set_eq, if_pos]
    unfold uint64Size at hs ht hwrap ⊢
    omega

theorem get_after_set_wraps_witness :
    ((NewKVStor.Set "a" "b" (2 ^ 64 - 1) 1700000000).Get "a" 1700000000).2 = ("", false) :=
  (get_after_set_wraps NewKVStor "a" "b" (2 ^ 64 - 1) 1700000000 1700000000).2.2.2.1
    (by decide) (by decide) (by decide)

/-- C20: for times `s ≤ now`, `Get key` at time `now` on the store left by one
pass of `AutoCleanObsolete` at time `s` returns the same value and found flag as
`Get key` at time `now` on the store itself; a record that `Get` returns at time
`now` is still in the map after the pass. -/
theorem sweep_unobservable (k : KVStor) (key : String) (s now : Nat) (hs : s ≤ now) :
    ((k.AutoCleanObsolete s).Get key now).2 = (k.Get key now).2 ∧
    ∀ value, (k.Get key now).2 = (value, true) →
      (k.AutoCleanObsolete s).payload.lookup key = k.payload.lookup key := by
  constructor
  · unfold KVStor.Get
    rw [AutoCleanObsolete_lookup]
    cases hl : k.payload.lookup key with
    | none => rfl
    | some rec =>
      by_cases ho : obsolete rec s = true
      · have ho2 := obsolete_mono rec s now hs ho
        simp [Option.filter, ho, ho2]
      · by_cases ho2 : obsolete rec now = true <;> simp [Option.filter, ho, ho2]
  · intro value hv
    rw [AutoCleanObsolete_lookup]
    unfold KVStor.Get at hv
    cases hl : k.payload.lookup key with
    | none => rfl
    | some rec =>
      rw [hl] at hv
      by_cases ho : obsolete rec s = true
      · have ho2 := obsolete_mono rec s now hs ho
        simp [ho2] at hv
      · simp [Option.filter, ho]

theorem sweep_unobservable_witness :
    (((NewKVStor.Set "a" "1" 1 100).AutoCleanObsolete 102).Get "a" 103).2 =
      ((NewKVStor.Set "a" "1" 1 100).Get "a" 103).2 :=
  (sweep_unobservable (NewKVStor.Set "a" "1" 1 100) "a" 102 103 (by decide)).1

/-! ## The handler: one line per verb -/

theorem writeResponse_eq (k : KVStor) (payload : String) (werr : Option String) :
    writeResponse k payload werr = ⟨k, [payload], werr⟩ := by
  cases werr <;> rfl

/-- With at most four fields the fill loop leaves the fields in their slots and
the empty string in the slots beyond. -/
theorem fillFields_pad (fs : List String) (h : fs.length ≤ 4) :
    fillFields ["", "", "", ""] 0 fs =
      some [fs.getD 0 "", fs.getD 1 "", fs.getD 2 "", fs.getD 3 ""] := by
  match fs, h with
  | [], _ => rfl
  | [a], _ => rfl
  | [a, b], _ => rfl
  | [a, b, c], _ => rfl
  | [a, b, c, d], _ => rfl
  | _ :: _ :: _ :: _ :: _ :: _, h => simp at h

theorem getD_zero_of_head (fs : List String) (verb : String) (h : fs.head? = some verb) :
    fs.getD 0 "" = verb := by
  cases fs with
  | nil => simp at h
  | cons a fs => simpa using h

/-- A line of at most four fields whose first field is `delete`. -/
theorem handleLine_delete (request : String) (now : Nat) (werr : Option String) (k : KVStor)
    (hlen : (Fields request).length ≤ 4) (hverb : (Fields request).head? = some "delete") :
    handleLine request now werr k =
      match k.Delete ((Fields request).getD 1 "") with
      | (k1, some err) => ⟨k1, ["deletion error: " ++ err ++ "\n"], werr⟩
      | (k1, none) =>
        ⟨k1, ["key: \x1b[35m" ++ (Fields request).getD 1 "" ++ "\x1b[0m was deleted\n"], werr⟩ := by
  unfold handleLine
  rw [fillFields_pad _ hlen]
  have h1 : ¬ ("delete" = "set") := by decide
  have h2 : ¬ ("delete" = "get") := by decide
  simp only [List.getD_cons_zero, List.getD_cons_succ, getD_zero_of_head _ _ hverb,
    if_true, h1, h2, if_false, writeResponse_eq]

/-- A line of at most four fields whose first field is `get`. -/
theorem handleLine_get (request : String) (now : Nat) (werr : Option String) (k : KVStor)
    (hlen : (Fields request).length ≤ 4) (hverb : (Fields request).head? = some "get") :
    handleLine request now werr k =
      ⟨(k.Get ((Fields request).getD 1 "") now).1,
        [if (k.Get ((Fields request).getD 1 "") now).2.2 = true then
          "key: \x1b[35m" ++ (Fields request).getD 1 "" ++ "\x1b[0m has value \x1b[35m" ++
            (k.Get ((Fields request).getD 1 "") now).2.1 ++ "\x1b[0m\n"
        else "key: \x1b[35m" ++ (Fields request).getD 1 "" ++
          "\x1b[0m doesnt't exist or expired\n"], werr⟩ := by
  unfold handleLine
  rw [fillFields_pad _ hlen]
  have h1 : ¬ ("get" = "set") := by decide
  simp only [List.getD_cons_zero, List.getD_cons_succ, getD_zero_of_head _ _ hverb,
    if_true, h1, if_false, writeResponse_eq]
  split <;> simp_all

/-- A line of at most four fields whose first field is `set`. -/
theorem handleLine_set (request : String) (now : Nat) (werr : Option String) (k : KVStor)
    (hlen : (Fields request).length ≤ 4) (hverb : (Fields request).head? = some "set") :
    handleLine request now werr k =
      ⟨k.Set ((Fields request).getD 1 "") ((Fields request).getD 2 "")
          (toUint64 (if (Fields request).getD 3 "" ≠ "" then
            (ParseInt ((Fields request).getD 3 "")).1 else (DefaultRecordTTL : Int))) now,
        ["set key: \x1b[35m" ++ (Fields request).getD 1 "" ++ "\x1b[0m with value \x1b[35m" ++
          (Fields request).getD 2 "" ++ "\x1b[0m and TTL \x1b[35m" ++
          toString (if (Fields request).getD 3 "" ≠ "" then
            (ParseInt ((Fields request).getD 3 "")).1 else (DefaultRecordTTL : Int)) ++
          "s\x1b[0m\n"], werr⟩ := by
  unfold handleLine
  rw [fillFields_pad _ hlen]
  simp only [List.getD_cons_zero, List.getD_cons_succ, getD_zero_of_head _ _ hverb,
    if_true, writeResponse_eq]

/-! ## Fields and numbers -/

/-- No field returned by `strings.Fields` is the empty string. -/
theorem fieldsGo_ne_empty (cs cur : List Char) : ∀ f ∈ fieldsGo cs cur, f ≠ "" := by
  have hmk : ∀ l : List Char, l.isEmpty = false → String.mk l ≠ "" := by
    intro l hl h
    have h2 : l = [] := by
      have := congrArg String.data h
      simpa using this
    simp [h2] at hl
  induction cs generalizing cur with
  | nil =>
    intro f hf
    unfold fieldsGo at hf
    cases hc : cur.isEmpty with
    | true => simp [hc] at hf
    | false =>
      simp only [hc, Bool.false_eq_true, if_false, List.mem_singleton] at hf
      rw [hf]; exact hmk cur hc
  | cons c cs ih =>
    intro f hf
    unfold fieldsGo at hf
    by_cases hsp : isSpace c = true
    · cases hc : cur.isEmpty with
      | true =>
        simp only [hsp, hc, if_true] at hf
        exact ih [] f hf
      | false =>
        simp only [hsp, hc, if_true, Bool.false_eq_true, if_false, List.mem_cons] at hf
        rcases hf with hf | hf
        · rw [hf]; exact hmk cur hc
        · exact ih [] f hf
    · simp only [hsp, if_false] at hf
      exact ih _ f hf

theorem Fields_ne_empty (request : String) : ∀ f ∈ Fields request, f ≠ "" :=
  fieldsGo_ne_empty _ _

theorem decimalValue_ge (cs : List Char) (n : Nat) : n ≤ decimalValue cs n := by
  induction cs generalizing n with
  | nil => exact Nat.le_refl n
  | cons c cs ih =>
    have h := ih (n * 10 + (c.toNat - '0'.toNat))
    have : decimalValue (c :: cs) n = decimalValue cs (n * 10 + (c.toNat - '0'.toNat)) := rfl
    omega

/-- On a run of digits whose value fits 64 bits the digit loop returns the value. -/
theorem parseUintLoop_digits (cs : List Char) (n : Nat)
    (hdig : ∀ c ∈ cs, '0' ≤ c ∧ c ≤ '9') (hval : decimalValue cs n < uint64Size) :
    parseUintLoop cs n = (decimalValue cs n, none) := by
  induction cs generalizing n with
  | nil => rfl
  | cons c cs ih =>
    have hstep : decimalValue (c :: cs) n =
        decimalValue cs (n * 10 + (c.toNat - '0'.toNat)) := rfl
    rw [hstep] at hval ⊢
    have hge := decimalValue_ge cs (n * 10 + (c.toNat - '0'.toNat))
    have hc := hdig c (List.mem_cons_self _ _)
    have hlt : n * 10 + (c.toNat - '0'.toNat) < uint64Size := by omega
    unfold parseUintLoop
    rw [if_pos hc]
    unfold uint64Size at hlt ⊢
    have h1 : ¬ (n ≥ (2 ^ 64 - 1) / 10 + 1) := by omega
    have h2 : n * 10 % 2 ^ 64 = n * 10 := Nat.mod_eq_of_lt (by omega)
    have h3 : (n * 10 + (c.toNat - '0'.toNat)) % 2 ^ 64 = n * 10 + (c.toNat - '0'.toNat) :=
      Nat.mod_eq_of_lt hlt
    simp only [h1, if_false, h2, h3]
    rw [if_neg (by omega)]
    have := ih (n * 10 + (c.toNat - '0'.toNat)) (fun c hc => hdig c (List.mem_cons_of_mem _ hc))
      hval
    unfold uint64Size at this
    exact this

/-- The value the digit loop returns with an error: 0 with a syntax error and the
largest `uint64` with a range error. -/
theorem parseUintLoop_error (cs : List Char) (n : Nat) :
    ((parseUintLoop cs n).2 = some NumError.ErrSyntax → (parseUintLoop cs n).1 = 0) ∧
    ((parseUintLoop cs n).2 = some NumError.ErrRange →
      (parseUintLoop cs n).1 = uint64Size - 1) := by
  induction cs generalizing n with
  | nil => simp [parseUintLoop]
  | cons c cs ih =>
    unfold parseUintLoop
    dsimp only
    split_ifs
    · simp
    · simp
    · exact ih _
    · simp

/-- A character that is no digit makes the digit loop return an error. -/
theorem parseUintLoop_nondigit (cs : List Char) (n : Nat)
    (h : ∃ c ∈ cs, ¬ ('0' ≤ c ∧ c ≤ '9')) : (parseUintLoop cs n).2 ≠ none := by
  induction cs generalizing n with
  | nil => simp at h
  | cons c cs ih =>
    unfold parseUintLoop
    dsimp only
    split_ifs with h1 h2 h3
    · simp
    · simp
    · apply ih
      obtain ⟨c', hc', hnd⟩ := h
      rcases List.mem_cons.mp hc' with rfl | hmem
      · exact absurd h1 hnd
      · exact ⟨c', hmem, hnd⟩
    · simp

theorem isDigits_false (cs : List Char) (h : isDigits cs = false) (hne : cs ≠ []) :
    ∃ c ∈ cs, ¬ ('0' ≤ c ∧ c ≤ '9') := by
  unfold isDigits at h
  cases cs with
  | nil => exact absurd rfl hne
  | cons a as =>
    simp only [List.isEmpty_cons, Bool.not_false, Bool.true_and] at h
    by_contra hcon
    push_neg at hcon
    have : (a :: as).all (fun c => decide ('0' ≤ c ∧ c ≤ '9')) = true := by
      rw [List.all_eq_true]
      intro c hc
      exact decide_eq_true (hcon c hc)
    rw [this] at h
    exact Bool.noConfusion h

/-- What `ParseUint` returns on a text that is no run of digits. -/
theorem ParseUint_not_digits (body : List Char) (h : isDigits body = false) :
    ParseUint body = (0, some NumError.ErrSyntax) ∨
    ParseUint body = (uint64Size - 1, some NumError.ErrRange) := by
  unfold ParseUint
  cases body with
  | nil => left; rfl
  | cons a as =>
    simp only [List.isEmpty_cons, Bool.false_eq_true, if_false]
    have hnd := parseUintLoop_nondigit (a :: as) 0 (isDigits_false _ h (by simp))
    have herr := parseUintLoop_error (a :: as) 0
    cases hr : parseUintLoop (a :: as) 0 with
    | mk v e =>
      rw [hr] at hnd herr
      cases e with
      | none => exact absurd rfl hnd
      | some err =>
        cases err with
        | ErrSyntax => left; simp at herr; simp [herr]
        | ErrRange => right; simp at herr; simp [herr]

/-- What `ParseInt` returns on a field that is no decimal number. -/
theorem ParseInt_not_decimal (x : String) (h : isDecimalNumber x = false) :
    ParseInt x = (0, some NumError.ErrSyntax) ∨
    ParseInt x = (2 ^ 63 - 1, some NumError.ErrRange) ∨
    ParseInt x = (-(2 ^ 63), some NumError.ErrRange) := by
  unfold ParseInt
  unfold isDecimalNumber at h
  cases hx : x.data with
  | nil => left; rfl
  | cons c cs =>
    rw [hx] at h
    dsimp only at h ⊢
    rcases ParseUint_not_digits (if c = '+' ∨ c = '-' then cs else c :: cs)
      (by split_ifs at h ⊢ <;> exact h) with hu | hu
    · left; rw [hu]
    · rw [hu]
      by_cases hneg : c = '-'
      · right; right
        simp [hneg, uint64Size]
      · right; left
        simp [hneg, uint64Size]

/-- On a run of digits whose value is below `2 ^ 63`, `ParseInt` returns the value
and no error. -/
theorem ParseInt_digits (x : String) (hd : isDigits x.data = true)
    (hv : decimalValue x.data 0 < 2 ^ 63) :
    ParseInt x = (((decimalValue x.data 0 : Nat) : Int), none) := by
  unfold ParseInt
  unfold isDigits at hd
  cases hx : x.data with
  | nil => rw [hx] at hd; simp at hd
  | cons c cs =>
    rw [hx] at hd hv
    simp only [List.isEmpty_cons, Bool.not_false, Bool.true_and, List.all_eq_true,
      decide_eq_true_eq] at hd
    have hc := hd c (List.mem_cons_self _ _)
    have hplus : c ≠ '+' := by
      intro h; rw [h] at hc; exact absurd hc (by decide)
    have hminus : c ≠ '-' := by
      intro h; rw [h] at hc; exact absurd hc (by decide)
    have hloop := parseUintLoop_digits (c :: cs) 0 hd (by unfold uint64Size; omega)
    simp only [hplus, hminus, or_self, if_false, ParseUint, List.isEmpty_cons,
      Bool.false_eq_true, hloop, decide_False, Bool.not_false, Bool.true_and,
      Bool.false_and]
    have h1 : ¬ (decimalValue (c :: cs) 0 ≥ 2 ^ 63) := by omega
    simp only [h1, decide_False, Bool.and_false, Bool.false_eq_true, if_false]

/-! ## The loop body: lines of more than four fields, lines without a verb -/

theorem getD_one_of_pair (verb key : String) : [verb, key].getD 1 "" = key := rfl

/-- A line of five or more fields ends in the index panic of the fill loop: no
store method is called and nothing is written. -/
theorem handleLine_more_than_four (request : String) (now : Nat) (werr : Option String)
    (k : KVStor) (h : 4 < (Fields request).length) :
    handleLine request now werr k =
      ⟨k, [], some "runtime error: index out of range [4] with length 4"⟩ := by
  unfold handleLine
  have hfill : fillFields ["", "", "", ""] 0 (Fields request) = none := by
    match hfs : Fields request, h with
    | [], h => simp at h
    | [_], h => simp at h
    | [_, _], h => simp at h
    | [_, _, _], h => simp at h
    | [_, _, _, _], h => simp at h
    | _ :: _ :: _ :: _ :: _ :: _, _ => simp [fillFields]
  rw [hfill]

/-- A line of at most four fields whose first field is no verb. -/
theorem handleLine_other (request : String) (now : Nat) (werr : Option String) (k : KVStor)
    (hlen : (Fields request).length ≤ 4)
    (hs : (Fields request).head? ≠ some "set")
    (hg : (Fields request).head? ≠ some "get")
    (hd : (Fields request).head? ≠ some "delete") :
    handleLine request now werr k =
      ⟨k, [usage], werr.map (fun _ => "something weird has happened.")⟩ := by
  obtain ⟨fields, hfill, hact⟩ := fillFields_le_four (Fields request) hlen
  have hne : ∀ verb : String, verb ≠ "" → (Fields request).head? ≠ some verb →
      fields.getD 0 "" ≠ verb := by
    intro verb hv hhead
    rw [hact]
    cases hfs : Fields request with
    | nil => simpa using fun h => hv h.symm
    | cons a fs => rw [hfs] at hhead; simpa using hhead
  have h1 := hne "set" (by decide) hs
  have h2 := hne "get" (by decide) hg
  have h3 := hne "delete" (by decide) hd
  unfold handleLine
  rw [hfill]
  simp only [h1, h2, h3, if_false]
  cases werr <;> rfl

/-- A line of at most four fields makes exactly one write. -/
theorem handleLine_one_write (request : String) (now : Nat) (werr : Option String)
    (k : KVStor) (h : (Fields request).length ≤ 4) :
    (handleLine request now werr k).writes.length = 1 := by
  by_cases hs : (Fields request).head? = some "set"
  · rw [handleLine_set request now _ k h hs]; rfl
  · by_cases hg : (Fields request).head? = some "get"
    · rw [handleLine_get request now _ k h hg]; rfl
    · by_cases hd : (Fields request).head? = some "delete"
      · rw [handleLine_delete request now _ k h hd]
        split <;> rfl
      · rw [handleLine_other request now _ k h hs hg hd]; rfl

/-- C16, at the failing input: the line `set k v 10 extra` has five fields; the
handler stops with the run-time panic of the index `4` in a slice of length 4,
before any store method is called, and writes no response. -/
theorem five_fields_index_panic :
    handleLine "set k v 10 extra" 100 none NewKVStor =
      ⟨NewKVStor, [], some "runtime error: index out of range [4] with length 4"⟩ := by
  decide

/-! ## The loop body: responses and the usage string -/

theorem head_append (a b : String) (c : Char) (h : a.data.head? = some c) :
    (a ++ b).data.head? = some c := by
  rw [String.data_append]
  cases ha : a.data with
  | nil => rw [ha] at h; simp at h
  | cons x xs => rw [ha] at h; simpa using h

/-- A text that does not start with `U` is not the usage string. -/
theorem ne_usage_of_head (a : String) (c : Char) (h : a.data.head? = some c) (hc : c ≠ 'U') :
    a ≠ usage := by
  intro heq
  rw [heq] at h
  have hU : usage.data.head? = some 'U' := by decide
  rw [hU] at h
  exact hc (Option.some.inj h).symm

theorem toUint64_default : toUint64 (DefaultRecordTTL : Int) = 3600 := by decide

theorem toString_default : toString (DefaultRecordTTL : Int) = "3600" := by decide

/-- The response to a line of at most four fields that starts with a verb is not
the usage string. -/
theorem verb_response_ne_usage (request : String) (now : Nat) (werr : Option String)
    (k : KVStor) (hlen : (Fields request).length ≤ 4)
    (hverb : (Fields request).head? = some "set" ∨ (Fields request).head? = some "get" ∨
      (Fields request).head? = some "delete") :
    (handleLine request now werr k).writes ≠ [usage] := by
  have hs : ("set key: \x1b[35m" : String).data.head? = some 's' := by decide
  have hk : ("key: \x1b[35m" : String).data.head? = some 'k' := by decide
  have hd : ("deletion error: " : String).data.head? = some 'd' := by decide
  intro hw
  rcases hverb with h | h | h
  · rw [handleLine_set request now werr k hlen h] at hw
    refine ne_usage_of_head _ 's' ?_ (by decide) (List.cons.inj hw).1
    iterate 6 apply head_append
    exact hs
  · rw [handleLine_get request now werr k hlen h] at hw
    have hw2 := (List.cons.inj hw).1
    split_ifs at hw2
    · refine ne_usage_of_head _ 'k' ?_ (by decide) hw2
      iterate 4 apply head_append
      exact hk
    · refine ne_usage_of_head _ 'k' ?_ (by decide) hw2
      iterate 2 apply head_append
      exact hk
  · rw [handleLine_delete request now werr k hlen h] at hw
    split at hw
    · refine ne_usage_of_head _ 'd' ?_ (by decide) (List.cons.inj hw).1
      iterate 2 apply head_append
      exact hd
    · refine ne_usage_of_head _ 'k' ?_ (by decide) (List.cons.inj hw).1
      iterate 2 apply head_append
      exact hk

/-! ## The loop body: set lines -/

theorem toUint64_natCast (n : Nat) (h : n < uint64Size) : toUint64 (n : Int) = n := by
  unfold toUint64
  rw [Int.emod_eq_of_lt (Int.natCast_nonneg n) (by exact_mod_cast h)]
  exact Int.toNat_natCast n

/-- A `set` line with all four fields: the TTL is what `ParseInt` returns for the
fourth field, whatever the error. -/
theorem handleLine_set_four (request : String) (now : Nat) (werr : Option String) (k : KVStor)
    (key value x : String) (h : Fields request = ["set", key, value, x]) :
    handleLine request now werr k =
      ⟨k.Set key value (toUint64 (ParseInt x).1) now,
        ["set key: \x1b[35m" ++ key ++ "\x1b[0m with value \x1b[35m" ++ value ++
          "\x1b[0m and TTL \x1b[35m" ++ toString (ParseInt x).1 ++ "s\x1b[0m\n"], werr⟩ := by
  have hx : x ≠ "" := Fields_ne_empty request x (by rw [h]; simp)
  rw [handleLine_set request now werr k (by rw [h]; simp) (by rw [h]; rfl)]
  simp only [h, List.getD_cons_succ, List.getD_cons_zero, ne_eq, hx, not_false_eq_true,
    if_true]

/-- A `set` line with three fields: the TTL is `DefaultRecordTTL`. -/
theorem handleLine_set_three (request : String) (now : Nat) (werr : Option String)
    (k : KVStor) (key value : String) (h : Fields request = ["set", key, value]) :
    handleLine request now werr k =
      ⟨k.Set key value 3600 now,
        ["set key: \x1b[35m" ++ key ++ "\x1b[0m with value \x1b[35m" ++ value ++
          "\x1b[0m and TTL \x1b[35m" ++ "3600" ++ "s\x1b[0m\n"], werr⟩ := by
  rw [handleLine_set request now werr k (by rw [h]; simp) (by rw [h]; rfl)]
  simp only [h, List.getD_cons_succ, List.getD_cons_zero, List.getD_nil, ne_eq,
    not_true_eq_false, if_false, toUint64_default, toString_default]

/-- On a run of digits whose value does not fit 64 bits the digit loop returns the
largest `uint64` and a range error. -/
theorem parseUintLoop_overflow (cs : List Char) (n : Nat)
    (hdig : ∀ c ∈ cs, '0' ≤ c ∧ c ≤ '9') (hn : n < uint64Size)
    (hval : uint64Size ≤ decimalValue cs n) :
    parseUintLoop cs n = (uint64Size - 1, some NumError.ErrRange) := by
  induction cs generalizing n with
  | nil => exact absurd hval (by show ¬ (uint64Size ≤ n); omega)
  | cons c cs ih =>
    have hstep : decimalValue (c :: cs) n =
        decimalValue cs (n * 10 + (c.toNat - '0'.toNat)) := rfl
    rw [hstep] at hval
    have hc := hdig c (List.mem_cons_self _ _)
    have hd9 : c.toNat - '0'.toNat ≤ 9 := by
      have h9 : c.toNat ≤ '9'.toNat := hc.2
      have : '9'.toNat = 57 := rfl
      have : '0'.toNat = 48 := rfl
      omega
    unfold parseUintLoop
    rw [if_pos hc]
    dsimp only
    by_cases h1 : n ≥ (uint64Size - 1) / 10 + 1
    · rw [if_pos h1]
    · rw [if_neg h1]
      unfold uint64Size at h1 hn hval ih ⊢
      have h2 : n * 10 % 2 ^ 64 = n * 10 := Nat.mod_eq_of_lt (by omega)
      rw [h2]
      by_cases h3 : n * 10 + (c.toNat - '0'.toNat) < 2 ^ 64
      · rw [Nat.mod_eq_of_lt h3, if_neg (by omega)]
        exact ih _ (fun c hc => hdig c (List.mem_cons_of_mem _ hc)) h3 hval
      · rw [if_pos]
        left
        omega

/-- On a run of digits whose value is `2 ^ 63` or more, `ParseInt` returns the
largest `int64` and a range error. -/
theorem ParseInt_digits_large (x : String) (hd : isDigits x.data = true)
    (hv : 2 ^ 63 ≤ decimalValue x.data 0) :
    ParseInt x = (2 ^ 63 - 1, some NumError.ErrRange) := by
  unfold ParseInt
  unfold isDigits at hd
  cases hx : x.data with
  | nil => rw [hx] at hd; simp at hd
  | cons c cs =>
    rw [hx] at hd hv
    simp only [List.isEmpty_cons, Bool.not_false, Bool.true_and, List.all_eq_true,
      decide_eq_true_eq] at hd
    have hc := hd c (List.mem_cons_self _ _)
    have hplus : c ≠ '+' := by
      intro h; rw [h] at hc; exact absurd hc (by decide)
    have hminus : c ≠ '-' := by
      intro h; rw [h] at hc; exact absurd hc (by decide)
    simp only [hplus, hminus, or_self, if_false, ParseUint, List.isEmpty_cons,
      Bool.false_eq_true, decide_False, Bool.not_false, Bool.true_and, Bool.false_and]
    by_cases hfit : decimalValue (c :: cs) 0 < uint64Size
    · rw [parseUintLoop_digits (c :: cs) 0 hd hfit]
      simp only [ge_iff_le, hv, decide_True, if_true]
      norm_num
    · rw [parseUintLoop_overflow (c :: cs) 0 hd (by decide) (by omega)]
      simp [uint64Size]

theorem toString_natCast (n : Nat) : toString ((n : Nat) : Int) = toString n := rfl

/-- A `set` line with four fields whose fourth field is a run of digits of value
below `2 ^ 63`. -/
theorem handleLine_set_digits (request : String) (now : Nat) (werr : Option String)
    (k : KVStor) (key value x : String) (h : Fields request = ["set", key, value, x])
    (hd : isDigits x.data = true) (hv : decimalValue x.data 0 < 2 ^ 63) :
    handleLine request now werr k =
      ⟨k.Set key value (decimalValue x.data 0) now,
        ["set key: \x1b[35m" ++ key ++ "\x1b[0m with value \x1b[35m" ++ value ++
          "\x1b[0m and TTL \x1b[35m" ++ toString (decimalValue x.data 0) ++ "s\x1b[0m\n"],
        werr⟩ := by
  rw [handleLine_set_four request now werr k key value x h, ParseInt_digits x hd hv]
  simp only [toString_natCast]
  rw [toUint64_natCast _ (by unfold uint64Size; omega)]

/-- `Get` in the second of a `Set` whose TTL does not wrap the sum. -/
theorem Get_Set_same_time (k : KVStor) (key value : String) (ttl now : Nat)
    (h : now + ttl < uint64Size) :
    (k.Set key value ttl now).Get key now = (k.Set key value ttl now, (value, true)) := by
  rw [Get_Set_eq, Nat.mod_eq_of_lt h, if_neg (by omega)]

/-! ## The scanner: lines, trailing space, length -/

/-- Space alone yields no field. -/
theorem fieldsGo_spaces (ws : List Char) (h : ∀ c ∈ ws, isSpace c = true) :
    fieldsGo ws [] = [] := by
  induction ws with
  | nil => rfl
  | cons w ws ih =>
    unfold fieldsGo
    rw [if_pos (h w (List.mem_cons_self _ _))]
    simpa using ih (fun c hc => h c (List.mem_cons_of_mem _ hc))

/-- Space at the end of a line does not change its fields. -/
theorem fieldsGo_append_spaces (cs ws cur : List Char) (h : ∀ c ∈ ws, isSpace c = true) :
    fieldsGo (cs ++ ws) cur = fieldsGo cs cur := by
  induction cs generalizing cur with
  | nil =>
    cases ws with
    | nil => rfl
    | cons w ws =>
      have hw := h w (List.mem_cons_self _ _)
      have hrest := fieldsGo_spaces ws (fun c hc => h c (List.mem_cons_of_mem _ hc))
      show fieldsGo (w :: ws) cur = fieldsGo [] cur
      unfold fieldsGo
      rw [if_pos hw, hrest]
  | cons c cs ih =>
    show fieldsGo (c :: (cs ++ ws)) cur = fieldsGo (c :: cs) cur
    unfold fieldsGo
    rw [ih, ih]

/-- `scanner.Text()` has the fields of the line as read: the `\r` that `dropCR`
removes is space. -/
theorem Fields_dropCR (raw : String) : Fields (dropCR raw) = Fields raw := by
  unfold dropCR
  by_cases h : raw.data.getLast? = some '\r'
  · rw [if_pos h]
    have hsplit : raw.data.dropLast ++ ['\r'] = raw.data :=
      List.dropLast_append_getLast? _ (by rw [h]; rfl)
    unfold Fields
    show fieldsGo raw.data.dropLast [] = fieldsGo raw.data []
    rw [← hsplit, fieldsGo_append_spaces _ ['\r'] [] (by
      intro c hc
      rw [List.mem_singleton.mp hc]
      decide)]
    simp
  · rw [if_neg h]

theorem replicate_space_isSpace (n : Nat) : ∀ c ∈ List.replicate n ' ', isSpace c = true := by
  intro c hc
  rw [(List.mem_replicate.mp hc).2]
  decide

theorem Fields_padded (s : String) (n : Nat) : Fields (padded s n) = Fields s := by
  unfold Fields padded
  rw [String.data_append]
  exact fieldsGo_append_spaces _ _ _ (replicate_space_isSpace n)

theorem utf8Len_replicate_space (n : Nat) : String.utf8Len (List.replicate n ' ') = n := by
  induction n with
  | zero => rfl
  | succ n ih =>
    rw [List.replicate_succ, String.utf8Len_cons, ih]
    rfl

theorem utf8ByteSize_padded (s : String) (n : Nat) :
    (padded s n).utf8ByteSize = s.utf8ByteSize + n := by
  unfold padded
  have h1 : ∀ t : String, t.utf8ByteSize = String.utf8Len t.data := fun t => rfl
  rw [h1, h1, String.data_append, String.utf8Len_append, utf8Len_replicate_space]

/-- A line shorter than the buffer is scanned and handled. -/
theorem scanTurn_short (raw : String) (now : Nat) (werr : Option String) (k : KVStor)
    (h : raw.utf8ByteSize < MaxScanTokenSize) :
    scanTurn raw now werr k = some (handleLine (dropCR raw) now werr k) := by
  unfold scanTurn
  rw [if_pos h]

/-- On a line that does not fit the buffer `Scan()` returns false. -/
theorem scanTurn_long (raw : String) (now : Nat) (werr : Option String) (k : KVStor)
    (h : MaxScanTokenSize ≤ raw.utf8ByteSize) : scanTurn raw now werr k = none := by
  unfold scanTurn
  rw [if_neg (by omega)]

/-- A line that does not fit the buffer ends the loop: nothing is written for it
and the lines behind it are not read. -/
theorem scanLoop_long (raw : String) (rest : List String) (i : Nat) (clock : Nat → Nat)
    (werr : Nat → Option String) (k : KVStor) (h : MaxScanTokenSize ≤ raw.utf8ByteSize) :
    scanLoop (raw :: rest) i clock werr k = ⟨k, [], none⟩ := by
  unfold scanLoop
  rw [scanTurn_long raw _ _ k h]

theorem splitLinesGo_cons (c : Char) (cs cur : List Char) :
    splitLinesGo (c :: cs) cur =
      if c = '\n' then String.mk cur :: splitLinesGo cs [] else splitLinesGo cs (cur ++ [c]) := by
  rw [splitLinesGo]

/-- The cut of a stream that starts with a line free of `\n`. -/
theorem splitLinesGo_line (cs rest cur : List Char) (h : ∀ c ∈ cs, c ≠ '\n') :
    splitLinesGo (cs ++ '\n' :: rest) cur = String.mk (cur ++ cs) :: splitLinesGo rest [] := by
  induction cs generalizing cur with
  | nil =>
    show splitLinesGo ('\n' :: rest) cur = _
    rw [splitLinesGo_cons, if_pos rfl]
    simp
  | cons c cs ih =>
    show splitLinesGo (c :: (cs ++ '\n' :: rest)) cur = _
    rw [splitLinesGo_cons, if_neg (h c (List.mem_cons_self _ _)),
      ih (cur ++ [c]) (fun c hc => h c (List.mem_cons_of_mem _ hc))]
    simp

/-- The lines of a stream that starts with the line `raw` and its `\n`. -/
theorem scanLines_line (raw more : String) (h : ∀ c ∈ raw.data, c ≠ '\n') :
    scanLines (raw ++ "\n" ++ more) = raw :: scanLines more := by
  unfold scanLines
  have hdata : (raw ++ "\n" ++ more).data = raw.data ++ '\n' :: more.data := by
    rw [String.data_append, String.data_append]
    simp
  rw [hdata, splitLinesGo_line _ _ _ h]
  simp

theorem padded_no_newline (s : String) (n : Nat) (h : ∀ c ∈ s.data, c ≠ '\n') :
    ∀ c ∈ (padded s n).data, c ≠ '\n' := by
  intro c hc
  unfold padded at hc
  rw [String.data_append] at hc
  rcases List.mem_append.mp hc with h1 | h1
  · exact h c h1
  · have : c = ' ' := (List.mem_replicate.mp h1).2
    rw [this]
    decide

/-- A connection whose first line does not fit the buffer: nothing is written,
the store is left as it was, the rest of the stream is not read, and the
connection is closed. -/
theorem HandleRequest_long_first (raw more : String) (clock : Nat → Nat)
    (werr : Nat → Option String) (k : KVStor) (h : ∀ c ∈ raw.data, c ≠ '\n')
    (hlong : MaxScanTokenSize ≤ raw.utf8ByteSize) :
    HandleRequest (raw ++ "\n" ++ more) clock werr k =
      { store := k, writes := [], closed := true, failure := none } := by
  unfold HandleRequest
  rw [scanLines_line raw more h, scanLoop_long raw _ 0 clock werr k hlong]

/-! ## The handler: unrecognised verbs -/

/-- C10, as stated, fails: the line `bogus` followed by 65531 spaces has one
field, which is no verb, and 65536 bytes; `scanner.Scan()` returns false on it,
the handler writes nothing (no usage string) and returns. -/
theorem long_unknown_line_counterexample :
    (Fields (padded "bogus" 65531)).length ≤ 4 ∧
    (Fields (padded "bogus" 65531)).head? ≠ some "set" ∧
    (Fields (padded "bogus" 65531)).head? ≠ some "get" ∧
    (Fields (padded "bogus" 65531)).head? ≠ some "delete" ∧
    scanTurn (padded "bogus" 65531) 100 none NewKVStor = none ∧
    HandleRequest (padded "bogus" 65531 ++ "\n" ++ "") (fun _ => 100) (fun _ => none)
        NewKVStor =
      { store := NewKVStor, writes := [], closed := true, failure := none } := by
  have hlong : MaxScanTokenSize ≤ (padded "bogus" 65531).utf8ByteSize := by
    rw [utf8ByteSize_padded]; decide
  rw [Fields_padded]
  refine ⟨by decide, by decide, by decide, by decide, scanTurn_long _ _ _ _ hlong, ?_⟩
  exact HandleRequest_long_first _ _ _ _ _ (padded_no_newline _ _ (by decide)) hlong

/-- C10, amended: for a line shorter than 65536 bytes with at most four fields
whose first field is none of "set", "get", "delete" (the blank line included), the
handler makes exactly one write, of the usage string, and leaves the store
unchanged; handling goes on when that write succeeds. A line of 65536 bytes or
more is not handled: nothing is written, the store is unchanged and the loop is
over. -/
theorem unknown_verb_line (raw : String) (now : Nat) (werr : Option String) (k : KVStor)
    (hlen : (Fields raw).length ≤ 4)
    (hset : (Fields raw).head? ≠ some "set")
    (hget : (Fields raw).head? ≠ some "get")
    (hdelete : (Fields raw).head? ≠ some "delete") :
    usage = "Usage: get <key> | set <key> <value> [TTL in seconds] | delete <key>\n" ∧
    (raw.utf8ByteSize < MaxScanTokenSize →
      scanTurn raw now werr k =
        some ⟨k, [usage], werr.map (fun _ => "something weird has happened.")⟩) ∧
    (MaxScanTokenSize ≤ raw.utf8ByteSize →
      scanTurn raw now werr k = none ∧
      ∀ rest i clock werrs, scanLoop (raw :: rest) i clock werrs k = ⟨k, [], none⟩) := by
  refine ⟨rfl, fun hshort => ?_, fun hlong => ⟨scanTurn_long _ _ _ _ hlong,
    fun rest i clock werrs => scanLoop_long _ _ _ _ _ _ hlong⟩⟩
  rw [scanTurn_short _ _ _ _ hshort]
  rw [handleLine_other (dropCR raw) now werr k (by rw [Fields_dropCR]; exact hlen)
    (by rw [Fields_dropCR]; exact hset) (by rw [Fields_dropCR]; exact hget)
    (by rw [Fields_dropCR]; exact hdelete)]

theorem unknown_verb_line_witness :
    scanTurn "INVALID_COMMAND" 100 none (NewKVStor.Set "a" "1" 10 100) =
      some ⟨NewKVStor.Set "a" "1" 10 100, [usage],
        (none : Option String).map (fun _ => "something weird has happened.")⟩ :=
  (unknown_verb_line "INVALID_COMMAND" 100 none (NewKVStor.Set "a" "1" 10 100)
    (by decide) (by decide) (by decide) (by decide)).2.1 (by decide)

/-! ## Signed decimal numbers -/

theorem isDigits_all (body : List Char) (h : isDigits body = true) :
    body ≠ [] ∧ ∀ c ∈ body, '0' ≤ c ∧ c ≤ '9' := by
  unfold isDigits at h
  cases body with
  | nil => simp at h
  | cons a as =>
    simp only [List.isEmpty_cons, Bool.not_false, Bool.true_and, List.all_eq_true,
      decide_eq_true_eq] at h
    exact ⟨by simp, h⟩

/-- What `ParseUint` returns on a run of digits. -/
theorem ParseUint_digits (body : List Char) (h : isDigits body = true) :
    ParseUint body =
      if decimalValue body 0 < uint64Size then (decimalValue body 0, none)
      else (uint64Size - 1, some NumError.ErrRange) := by
  obtain ⟨hne, hall⟩ := isDigits_all body h
  unfold ParseUint
  cases body with
  | nil => exact absurd rfl hne
  | cons a as =>
    simp only [List.isEmpty_cons, Bool.false_eq_true, if_false]
    by_cases hv : decimalValue (a :: as) 0 < uint64Size
    · rw [if_pos hv, parseUintLoop_digits _ 0 hall hv]
    · rw [if_neg hv, parseUintLoop_overflow _ 0 hall (by decide) (by omega)]

/-- What `ParseInt` returns when `ParseUint` accepts the text behind the sign. -/
theorem ParseInt_of_value (x : String) (c : Char) (cs body : List Char) (un : Nat)
    (hx : x.data = c :: cs) (hb : body = if c = '+' ∨ c = '-' then cs else c :: cs)
    (hu : ParseUint body = (un, none)) :
    ParseInt x =
      if c = '-' then
        (if un > 2 ^ 63 then (-(2 ^ 63), some NumError.ErrRange) else (-(un : Int), none))
      else
        (if un ≥ 2 ^ 63 then (2 ^ 63 - 1, some NumError.ErrRange) else ((un : Int), none)) := by
  unfold ParseInt
  rw [hx]
  dsimp only
  rw [← hb, hu]
  by_cases hneg : c = '-'
  · by_cases h1 : un > 2 ^ 63 <;> simp [hneg, h1]
  · by_cases h1 : un ≥ 2 ^ 63 <;> simp [hneg, h1]

/-- What `ParseInt` returns when `ParseUint` reports a range error. -/
theorem ParseInt_of_range (x : String) (c : Char) (cs body : List Char)
    (hx : x.data = c :: cs) (hb : body = if c = '+' ∨ c = '-' then cs else c :: cs)
    (hu : ParseUint body = (uint64Size - 1, some NumError.ErrRange)) :
    ParseInt x =
      if c = '-' then (-(2 ^ 63), some NumError.ErrRange)
      else (2 ^ 63 - 1, some NumError.ErrRange) := by
  unfold ParseInt
  rw [hx]
  dsimp only
  rw [← hb, hu]
  by_cases hneg : c = '-' <;> simp [hneg, uint64Size]

/-- The text behind the sign of a decimal number is a run of digits, and the
number is its value with the sign. -/
theorem isDecimalNumber_body (x : String) (h : isDecimalNumber x = true) :
    ∃ c cs body, x.data = c :: cs ∧
      body = (if c = '+' ∨ c = '-' then cs else c :: cs) ∧
      isDigits body = true ∧
      decimalInt x =
        if c = '-' then -((decimalValue body 0 : Nat) : Int)
        else ((decimalValue body 0 : Nat) : Int) := by
  unfold isDecimalNumber at h
  unfold decimalInt
  cases hx : x.data with
  | nil => rw [hx] at h; simp at h
  | cons c cs =>
    rw [hx] at h
    have h2 : isDigits (if c = '+' ∨ c = '-' then cs else c :: cs) = true := by
      by_cases hs : c = '+' ∨ c = '-'
      · simpa [hs] using h
      · simpa [hs] using h
    refine ⟨c, cs, _, rfl, rfl, h2, ?_⟩
    by_cases hm : c = '-'
    · simp [hm]
    · by_cases hp : c = '+'
      · simp [hp]
      · simp [hm, hp]

/-- On a decimal number in `int64` range `ParseInt` returns the number and no
error. -/
theorem ParseInt_decimal (x : String) (h : isDecimalNumber x = true)
    (hlo : -(2 ^ 63) ≤ decimalInt x) (hhi : decimalInt x < 2 ^ 63) :
    ParseInt x = (decimalInt x, none) := by
  obtain ⟨c, cs, body, hx, hb, hd, hval⟩ := isDecimalNumber_body x h
  have hu := ParseUint_digits body hd
  by_cases hm : c = '-'
  · rw [if_pos hm] at hval
    rw [hval] at hlo ⊢
    have hv : decimalValue body 0 ≤ 2 ^ 63 := by omega
    rw [if_pos (by unfold uint64Size; omega)] at hu
    rw [ParseInt_of_value x c cs body _ hx hb hu, if_pos hm, if_neg (by omega)]
  · rw [if_neg hm] at hval
    rw [hval] at hhi ⊢
    have hv : decimalValue body 0 < 2 ^ 63 := by omega
    rw [if_pos (by unfold uint64Size; omega)] at hu
    rw [ParseInt_of_value x c cs body _ hx hb hu, if_neg hm, if_neg (by omega)]

/-- On a decimal number of `2 ^ 63` or more `ParseInt` returns the largest `int64`
beside a range error. -/
theorem ParseInt_decimal_large (x : String) (h : isDecimalNumber x = true)
    (hhi : 2 ^ 63 ≤ decimalInt x) :
    ParseInt x = (2 ^ 63 - 1, some NumError.ErrRange) := by
  obtain ⟨c, cs, body, hx, hb, hd, hval⟩ := isDecimalNumber_body x h
  have hu := ParseUint_digits body hd
  have hm : c ≠ '-' := by
    intro hm
    rw [if_pos hm] at hval
    omega
  rw [if_neg hm] at hval
  rw [hval] at hhi
  have hv : 2 ^ 63 ≤ decimalValue body 0 := by omega
  by_cases hfit : decimalValue body 0 < uint64Size
  · rw [if_pos hfit] at hu
    rw [ParseInt_of_value x c cs body _ hx hb hu, if_neg hm, if_pos (by omega)]
  · rw [if_neg hfit] at hu
    rw [ParseInt_of_range x c cs body hx hb hu, if_neg hm]

/-! ## The handler: missing fields -/

/-- C11, as stated, fails: the line `set k` (no value) is not answered with the
usage string; the handler stores the empty value under `k` with TTL 3600 and
writes the confirmation of a `set`. -/
theorem set_without_value_counterexample :
    scanTurn "set k" 100 none NewKVStor =
      some ⟨NewKVStor.Set "k" "" 3600 100,
        ["set key: \x1b[35mk\x1b[0m with value \x1b[35m\x1b[0m and TTL \x1b[35m3600s\x1b[0m\n"],
        none⟩ ∧
    scanTurn "set k" 100 none NewKVStor ≠ some ⟨NewKVStor, [usage], none⟩ := by
  decide

/-- C11, amended: a line shorter than 65536 bytes whose first field is "set",
"get" or "delete" but which has fewer fields than the command requires is not
answered with the usage string; the handler runs the command with every missing
field taken as the empty string and a missing TTL as 3600: `set <key>` stores the
empty value under `key`, `set` stores it under the empty key, `get` and `delete`
act on the empty key, and the response written is that of the command. A line of
65536 bytes or more is not handled. -/
theorem missing_fields_default (raw : String) (now : Nat) (werr : Option String)
    (k : KVStor) (key : String) :
    (raw.utf8ByteSize < MaxScanTokenSize →
      (Fields raw = ["set", key] →
        scanTurn raw now werr k =
          some ⟨k.Set key "" 3600 now,
            ["set key: \x1b[35m" ++ key ++ "\x1b[0m with value \x1b[35m" ++ "" ++
              "\x1b[0m and TTL \x1b[35m" ++ "3600" ++ "s\x1b[0m\n"], werr⟩) ∧
      (Fields raw = ["set"] →
        scanTurn raw now werr k =
          some ⟨k.Set "" "" 3600 now,
            ["set key: \x1b[35m" ++ "" ++ "\x1b[0m with value \x1b[35m" ++ "" ++
              "\x1b[0m and TTL \x1b[35m" ++ "3600" ++ "s\x1b[0m\n"], werr⟩) ∧
      (Fields raw = ["get"] →
        scanTurn raw now werr k =
          some ⟨(k.Get "" now).1,
            [if (k.Get "" now).2.2 = true then
              "key: \x1b[35m" ++ "" ++ "\x1b[0m has value \x1b[35m" ++ (k.Get "" now).2.1 ++
                "\x1b[0m\n"
            else "key: \x1b[35m" ++ "" ++ "\x1b[0m doesnt't exist or expired\n"], werr⟩) ∧
      (Fields raw = ["delete"] →
        scanTurn raw now werr k =
          some (match k.Delete "" with
          | (k1, some err) => ⟨k1, ["deletion error: " ++ err ++ "\n"], werr⟩
          | (k1, none) => ⟨k1, ["key: \x1b[35m" ++ "" ++ "\x1b[0m was deleted\n"], werr⟩)) ∧
      ((Fields raw = ["set", key] ∨ Fields raw = ["set"] ∨ Fields raw = ["get"] ∨
          Fields raw = ["delete"]) →
        ∀ o, scanTurn raw now werr k = some o → o.writes ≠ [usage])) ∧
    (MaxScanTokenSize ≤ raw.utf8ByteSize → scanTurn raw now werr k = none) := by
  refine ⟨fun hshort => ?_, fun hlong => scanTurn_long _ _ _ _ hlong⟩
  rw [scanTurn_short _ _ _ _ hshort]
  have hF := Fields_dropCR raw
  refine ⟨fun h => ?_, fun h => ?_, fun h => ?_, fun h => ?_, fun h o ho => ?_⟩
  · rw [handleLine_set (dropCR raw) now werr k (by rw [hF, h]; simp) (by rw [hF, h]; rfl)]
    simp only [hF, h, List.getD_cons_succ, List.getD_cons_zero, List.getD_nil, ne_eq,
      not_true_eq_false, if_false, toUint64_default, toString_default]
  · rw [handleLine_set (dropCR raw) now werr k (by rw [hF, h]; simp) (by rw [hF, h]; rfl)]
    simp only [hF, h, List.getD_cons_succ, List.getD_cons_zero, List.getD_nil, ne_eq,
      not_true_eq_false, if_false, toUint64_default, toString_default]
  · rw [handleLine_get (dropCR raw) now werr k (by rw [hF, h]; simp) (by rw [hF, h]; rfl)]
    simp only [hF, h, List.getD_cons_succ, List.getD_cons_zero, List.getD_nil]
  · rw [handleLine_delete (dropCR raw) now werr k (by rw [hF, h]; simp) (by rw [hF, h]; rfl)]
    simp only [hF, h, List.getD_cons_succ, List.getD_cons_zero, List.getD_nil]
  · rw [← Option.some.inj ho]
    apply verb_response_ne_usage
    · rw [hF]; rcases h with h | h | h | h <;> rw [h] <;> simp
    · rw [hF]; rcases h with h | h | h | h <;> rw [h] <;> simp

theorem missing_fields_default_witness :
    scanTurn "set k" 100 none NewKVStor =
      some ⟨NewKVStor.Set "k" "" 3600 100,
        ["set key: \x1b[35m" ++ "k" ++ "\x1b[0m with value \x1b[35m" ++ "" ++
          "\x1b[0m and TTL \x1b[35m" ++ "3600" ++ "s\x1b[0m\n"], none⟩ :=
  ((missing_fields_default "set k" 100 none NewKVStor "k").1 (by decide)).1 (by decide)

/-! ## The handler: delete lines -/

/-- C15, as stated, fails: the line `delete k` followed by 65528 spaces has the
two fields `delete` and `k` and 65536 bytes; on a store that holds `k` the handler
neither removes `k` nor writes a response: `scanner.Scan()` returns false. -/
theorem long_delete_line_counterexample :
    Fields (padded "delete k" 65528) = ["delete", "k"] ∧
    "k" ∈ (NewKVStor.Set "k" "v" 3600 100).payload ∧
    scanTurn (padded "delete k" 65528) 100 none (NewKVStor.Set "k" "v" 3600 100) = none ∧
    HandleRequest (padded "delete k" 65528 ++ "\n" ++ "") (fun _ => 100) (fun _ => none)
        (NewKVStor.Set "k" "v" 3600 100) =
      { store := NewKVStor.Set "k" "v" 3600 100, writes := [], closed := true,
        failure := none } := by
  have hlong : MaxScanTokenSize ≤ (padded "delete k" 65528).utf8ByteSize := by
    rw [utf8ByteSize_padded]; decide
  rw [Fields_padded]
  refine ⟨by decide, by decide, scanTurn_long _ _ _ _ hlong, ?_⟩
  exact HandleRequest_long_first _ _ _ _ _ (padded_no_newline _ _ (by decide)) hlong

/-- C15, amended: for a line `delete <key>` of two fields and fewer than 65536
bytes, when `key` is present in the map the handler erases it and writes exactly
"key: \033[35m<key>\033[0m was deleted\n"; when `key` is absent the handler writes
exactly "deletion error: no such key\n" and leaves the store unchanged. A line of
65536 bytes or more is not handled: no key is removed and nothing is written. -/
theorem delete_line_response (raw : String) (now : Nat) (werr : Option String)
    (k : KVStor) (key : String) (h : Fields raw = ["delete", key]) :
    (raw.utf8ByteSize < MaxScanTokenSize →
      (key ∈ k.payload →
        scanTurn raw now werr k =
          some ⟨⟨k.payload.erase key⟩,
            ["key: \x1b[35m" ++ key ++ "\x1b[0m was deleted\n"], werr⟩) ∧
      (key ∉ k.payload →
        scanTurn raw now werr k = some ⟨k, ["deletion error: no such key\n"], werr⟩)) ∧
    (MaxScanTokenSize ≤ raw.utf8ByteSize →
      scanTurn raw now werr k = none ∧
      ∀ rest i clock werrs, scanLoop (raw :: rest) i clock werrs k = ⟨k, [], none⟩) := by
  refine ⟨fun hshort => ?_, fun hlong => ⟨scanTurn_long _ _ _ _ hlong,
    fun rest i clock werrs => scanLoop_long _ _ _ _ _ _ hlong⟩⟩
  rw [scanTurn_short _ _ _ _ hshort]
  have hF := Fields_dropCR raw
  have hline := handleLine_delete (dropCR raw) now werr k (by rw [hF, h]; simp)
    (by rw [hF, h]; rfl)
  rw [hF, h, getD_one_of_pair] at hline
  constructor
  · intro hmem
    obtain ⟨rec, hrec⟩ := Option.isSome_iff_exists.mp (AList.lookup_isSome.mpr hmem)
    have hdel : k.Delete key = (⟨k.payload.erase key⟩, none) := by
      simp [KVStor.Delete, hrec]
    rw [hline, hdel]
  · intro hmem
    have hdel : k.Delete key = (k, some "no such key") := by
      simp [KVStor.Delete, AList.lookup_eq_none.mpr hmem]
    rw [hline, hdel]
    rfl

theorem delete_line_response_witness :
    scanTurn "delete key6" 100 none (NewKVStor.Set "key6" "value6" 3600 100) =
      some ⟨⟨(NewKVStor.Set "key6" "value6" 3600 100).payload.erase "key6"⟩,
        ["key: \x1b[35m" ++ "key6" ++ "\x1b[0m was deleted\n"], none⟩ :=
  ((delete_line_response "delete key6" 100 none (NewKVStor.Set "key6" "value6" 3600 100)
    "key6" (by decide)).1 (by decide)).1 (by decide)

/-! ## The handler: the TTL field of a set line -/

theorem toUint64_nonneg (v : Int) (h0 : 0 ≤ v) (h1 : v < 2 ^ 64) :
    toUint64 v = v.toNat := by
  unfold toUint64
  rw [Int.emod_eq_of_lt h0 (by unfold uint64Size; exact_mod_cast h1)]

/-- C12, as stated, fails: the line `set a b xyz`, whose fourth field is no
decimal number, is answered with the confirmation of a `set` and the record is
stored with TTL 0. -/
theorem set_bad_ttl_counterexample :
    isDecimalNumber "xyz" = false ∧
    scanTurn "set a b xyz" 100 none NewKVStor =
      some ⟨NewKVStor.Set "a" "b" 0 100,
        ["set key: \x1b[35ma\x1b[0m with value \x1b[35mb\x1b[0m and TTL \x1b[35m0s\x1b[0m\n"],
        none⟩ ∧
    scanTurn "set a b xyz" 100 none NewKVStor ≠ some ⟨NewKVStor, [usage], none⟩ := by
  decide

/-- C12, amended: for a line `set <key> <value> <x>` of fewer than 65536 bytes
whose fourth field `x` is no decimal number, the handler drops the error of
`strconv.ParseInt` and stores the record with the value `ParseInt` returned beside
the error as TTL: 0 on a syntax error, and the clamped `2 ^ 63 - 1` or `-2 ^ 63`
when the digits in front of the offending character already overflow; the
response is the confirmation of the `set` naming that TTL, never the usage string.
A line of 65536 bytes or more is not handled. -/
theorem set_bad_ttl_stored (raw : String) (now : Nat) (werr : Option String) (k : KVStor)
    (key value x : String) (h : Fields raw = ["set", key, value, x])
    (hx : isDecimalNumber x = false) :
    (raw.utf8ByteSize < MaxScanTokenSize →
      scanTurn raw now werr k =
        some ⟨k.Set key value (toUint64 (ParseInt x).1) now,
          ["set key: \x1b[35m" ++ key ++ "\x1b[0m with value \x1b[35m" ++ value ++
            "\x1b[0m and TTL \x1b[35m" ++ toString (ParseInt x).1 ++ "s\x1b[0m\n"], werr⟩ ∧
      ((ParseInt x).2 = some NumError.ErrSyntax →
        scanTurn raw now werr k =
          some ⟨k.Set key value 0 now,
            ["set key: \x1b[35m" ++ key ++ "\x1b[0m with value \x1b[35m" ++ value ++
              "\x1b[0m and TTL \x1b[35m" ++ "0" ++ "s\x1b[0m\n"], werr⟩) ∧
      ∀ o, scanTurn raw now werr k = some o → o.writes ≠ [usage]) ∧
    (ParseInt x = (0, some NumError.ErrSyntax) ∨
      ParseInt x = (2 ^ 63 - 1, some NumError.ErrRange) ∨
      ParseInt x = (-(2 ^ 63), some NumError.ErrRange)) ∧
    (MaxScanTokenSize ≤ raw.utf8ByteSize → scanTurn raw now werr k = none) := by
  have hF := Fields_dropCR raw
  have hparse := ParseInt_not_decimal x hx
  refine ⟨fun hshort => ?_, hparse, fun hlong => scanTurn_long _ _ _ _ hlong⟩
  have hline := handleLine_set_four (dropCR raw) now werr k key value x (by rw [hF, h])
  rw [scanTurn_short _ _ _ _ hshort]
  refine ⟨by rw [hline], fun hsyn => ?_, fun o ho => ?_⟩
  · have h0 : (ParseInt x).1 = 0 := by
      rcases hparse with hp | hp | hp
      · rw [hp]
      · rw [hp] at hsyn; exact absurd hsyn (by decide)
      · rw [hp] at hsyn; exact absurd hsyn (by decide)
    rw [hline, h0]
    rfl
  · rw [← Option.some.inj ho]
    exact verb_response_ne_usage (dropCR raw) now werr k (by rw [hF, h]; simp)
      (Or.inl (by rw [hF, h]; rfl))

theorem set_bad_ttl_stored_witness :
    scanTurn "set a b 12x" 100 none NewKVStor =
      some ⟨NewKVStor.Set "a" "b" (toUint64 (ParseInt "12x").1) 100,
        ["set key: \x1b[35m" ++ "a" ++ "\x1b[0m with value \x1b[35m" ++ "b" ++
          "\x1b[0m and TTL \x1b[35m" ++ toString (ParseInt "12x").1 ++ "s\x1b[0m\n"], none⟩ :=
  ((set_bad_ttl_stored "set a b 12x" 100 none NewKVStor "a" "b" "12x" (by decide)
    (by decide)).1 (by decide)).1

/-- A `set` line whose fourth field is a decimal number from 0 to `2 ^ 63 - 1`. -/
theorem handleLine_set_decimal (request : String) (now : Nat) (werr : Option String)
    (k : KVStor) (key value x : String) (h : Fields request = ["set", key, value, x])
    (hd : isDecimalNumber x = true) (h0 : 0 ≤ decimalInt x) (hv : decimalInt x < 2 ^ 63) :
    handleLine request now werr k =
      ⟨k.Set key value (decimalInt x).toNat now,
        ["set key: \x1b[35m" ++ key ++ "\x1b[0m with value \x1b[35m" ++ value ++
          "\x1b[0m and TTL \x1b[35m" ++ toString (decimalInt x) ++ "s\x1b[0m\n"],
        werr⟩ := by
  rw [handleLine_set_four request now werr k key value x h,
    ParseInt_decimal x hd (by omega) hv]
  simp only
  rw [toUint64_nonneg _ h0 (by omega)]

/-- C13, as stated, fails: the line `set k v` followed by 65529 spaces has the
three fields `set`, `k`, `v` and 65536 bytes; the handler stores no record and
writes no response: `scanner.Scan()` returns false. -/
theorem long_set_line_counterexample :
    Fields (padded "set k v" 65529) = ["set", "k", "v"] ∧
    scanTurn (padded "set k v" 65529) 100 none NewKVStor = none ∧
    HandleRequest (padded "set k v" 65529 ++ "\n" ++ "") (fun _ => 100) (fun _ => none)
        NewKVStor =
      { store := NewKVStor, writes := [], closed := true, failure := none } := by
  have hlong : MaxScanTokenSize ≤ (padded "set k v" 65529).utf8ByteSize := by
    rw [utf8ByteSize_padded]; decide
  rw [Fields_padded]
  refine ⟨by decide, scanTurn_long _ _ _ _ hlong, ?_⟩
  exact HandleRequest_long_first _ _ _ _ _ (padded_no_newline _ _ (by decide)) hlong

/-- C13, amended: among the lines shorter than 65536 bytes, a line
`set <key> <value>` of three fields stores the record with TTL 3600, and a line
`set <key> <value> <x>` whose fourth field is a decimal number `n` from 0 to
`2 ^ 63 - 1` (an optional sign and digits: `10`, `007`, `+5`, `-0`) stores it
with TTL `n`; the record has value `value` and timestamp `now`, and the response
is exactly
"set key: \033[35m<key>\033[0m with value \033[35m<value>\033[0m and TTL \033[35m<ttl>s\033[0m\n"
with the TTL stored. A `get <key>` line in the same second as the three-field
`set` answers with the value. A line of 65536 bytes or more is not handled:
nothing is stored and nothing is written. -/
theorem set_line_ttl (raw : String) (now : Nat) (werr : Option String) (k : KVStor)
    (key value : String) :
    (raw.utf8ByteSize < MaxScanTokenSize →
      (Fields raw = ["set", key, value] →
        scanTurn raw now werr k =
          some ⟨k.Set key value 3600 now,
            ["set key: \x1b[35m" ++ key ++ "\x1b[0m with value \x1b[35m" ++ value ++
              "\x1b[0m and TTL \x1b[35m" ++ "3600" ++ "s\x1b[0m\n"], werr⟩ ∧
        (k.Set key value 3600 now).payload.lookup key =
          some { Key := key, Value := value, Timestamp := now, TimeToLive := 3600,
                 KeySize := 0, ValueSize := 0, CheckSum := [] }) ∧
      (∀ x, Fields raw = ["set", key, value, x] → isDecimalNumber x = true →
        0 ≤ decimalInt x → decimalInt x < 2 ^ 63 →
        scanTurn raw now werr k =
          some ⟨k.Set key value (decimalInt x).toNat now,
            ["set key: \x1b[35m" ++ key ++ "\x1b[0m with value \x1b[35m" ++ value ++
              "\x1b[0m and TTL \x1b[35m" ++ toString (decimalInt x) ++ "s\x1b[0m\n"],
            werr⟩ ∧
        (k.Set key value (decimalInt x).toNat now).payload.lookup key =
          some { Key := key, Value := value, Timestamp := now,
                 TimeToLive := (decimalInt x).toNat,
                 KeySize := 0, ValueSize := 0, CheckSum := [] }) ∧
      (Fields raw = ["set", key, value] → now + 3600 < uint64Size →
        ∀ raw2 werr2, Fields raw2 = ["get", key] → raw2.utf8ByteSize < MaxScanTokenSize →
          scanTurn raw2 now werr2 (k.Set key value 3600 now) =
            some ⟨k.Set key value 3600 now,
              ["key: \x1b[35m" ++ key ++ "\x1b[0m has value \x1b[35m" ++ value ++ "\x1b[0m\n"],
              werr2⟩)) ∧
    (MaxScanTokenSize ≤ raw.utf8ByteSize →
      scanTurn raw now werr k = none ∧
      ∀ rest i clock werrs, scanLoop (raw :: rest) i clock werrs k = ⟨k, [], none⟩) := by
  refine ⟨fun hshort => ?_, fun hlong => ⟨scanTurn_long _ _ _ _ hlong,
    fun rest i clock werrs => scanLoop_long _ _ _ _ _ _ hlong⟩⟩
  rw [scanTurn_short _ _ _ _ hshort]
  have hF := Fields_dropCR raw
  refine ⟨fun h => ?_, fun x h hd h0 hv => ?_, fun h hnow raw2 werr2 h2 hshort2 => ?_⟩
  · rw [handleLine_set_three (dropCR raw) now werr k key value (by rw [hF, h])]
    exact ⟨rfl, Set_lookup_self _ _ _ _ _⟩
  · rw [handleLine_set_decimal (dropCR raw) now werr k key value x (by rw [hF, h]) hd h0 hv]
    exact ⟨rfl, Set_lookup_self _ _ _ _ _⟩
  · have hF2 := Fields_dropCR raw2
    rw [scanTurn_short _ _ _ _ hshort2,
      handleLine_get (dropCR raw2) now werr2 _ (by rw [hF2, h2]; simp) (by rw [hF2, h2]; rfl)]
    simp only [hF2, h2, List.getD_cons_succ, List.getD_cons_zero,
      Get_Set_same_time k key value 3600 now hnow, if_true]

theorem set_line_ttl_witness :
    scanTurn "set key4 value4 +10" 100 none NewKVStor =
      some ⟨NewKVStor.Set "key4" "value4" (decimalInt "+10").toNat 100,
        ["set key: \x1b[35m" ++ "key4" ++ "\x1b[0m with value \x1b[35m" ++ "value4" ++
          "\x1b[0m and TTL \x1b[35m" ++ toString (decimalInt "+10") ++ "s\x1b[0m\n"],
        none⟩ :=
  ((((set_line_ttl "set key4 value4 +10" 100 none NewKVStor "key4" "value4").1
    (by decide)).2.1) "+10" (by decide) (by decide) (by decide) (by decide)).1

/-! ## The handler: get lines -/

/-- A line for which the scanner loop ran its body is shorter than the buffer, and
the outcome is that of the body. -/
theorem scanTurn_some (raw : String) (now : Nat) (werr : Option String) (k : KVStor)
    (o : Outcome) (h : scanTurn raw now werr k = some o) :
    raw.utf8ByteSize < MaxScanTokenSize ∧ o = handleLine (dropCR raw) now werr k := by
  unfold scanTurn at h
  by_cases hs : raw.utf8ByteSize < MaxScanTokenSize
  · rw [if_pos hs] at h
    exact ⟨hs, (Option.some.inj h).symm⟩
  · rw [if_neg hs] at h
    exact Option.noConfusion h

/-- C14, as stated, fails: the line `get k` followed by 65531 spaces has the two
fields `get` and `k` and 65536 bytes; on a store that holds `k` the handler writes
neither of the two messages: `scanner.Scan()` returns false. -/
theorem long_get_line_counterexample :
    Fields (padded "get k" 65531) = ["get", "k"] ∧
    ((NewKVStor.Set "k" "v" 3600 100).Get "k" 100).2 = ("v", true) ∧
    scanTurn (padded "get k" 65531) 100 none (NewKVStor.Set "k" "v" 3600 100) = none ∧
    HandleRequest (padded "get k" 65531 ++ "\n" ++ "") (fun _ => 100) (fun _ => none)
        (NewKVStor.Set "k" "v" 3600 100) =
      { store := NewKVStor.Set "k" "v" 3600 100, writes := [], closed := true,
        failure := none } := by
  have hlong : MaxScanTokenSize ≤ (padded "get k" 65531).utf8ByteSize := by
    rw [utf8ByteSize_padded]; decide
  rw [Fields_padded]
  refine ⟨by decide, by decide, scanTurn_long _ _ _ _ hlong, ?_⟩
  exact HandleRequest_long_first _ _ _ _ _ (padded_no_newline _ _ (by decide)) hlong

/-- C14, amended: for a line `get <key>` of two fields and fewer than 65536 bytes
the handler leaves the store as `Get key` leaves it and writes exactly
"key: \033[35m<key>\033[0m has value \033[35m<v>\033[0m\n" when `Get key` at that
time returns `(v, true)`, and exactly the "doesnt't exist or expired" message for
`key` otherwise. After a handled line `set <key> <v> <x>` with `x` a decimal number
`n ≥ 0` (every `n > 0`, and `0`), such a `get <key>` line in the same second
answers with the has-value message carrying `v`, the clock being a Unix time at or
after the epoch (`now < 2 ^ 63`). A line of 65536 bytes or more is not handled:
nothing is written. -/
theorem get_line_response (raw : String) (now : Nat) (werr : Option String)
    (k : KVStor) (key : String) (h : Fields raw = ["get", key]) :
    (raw.utf8ByteSize < MaxScanTokenSize →
      (∀ v, (k.Get key now).2 = (v, true) →
        scanTurn raw now werr k =
          some ⟨(k.Get key now).1,
            ["key: \x1b[35m" ++ key ++ "\x1b[0m has value \x1b[35m" ++ v ++ "\x1b[0m\n"],
            werr⟩) ∧
      (∀ v, (k.Get key now).2 = (v, false) →
        scanTurn raw now werr k =
          some ⟨(k.Get key now).1,
            ["key: \x1b[35m" ++ key ++ "\x1b[0m doesnt't exist or expired\n"], werr⟩) ∧
      (∀ (k0 : KVStor) (raw0 : String) (werr0 : Option String) (value x : String)
          (o : Outcome),
        Fields raw0 = ["set", key, value, x] → isDecimalNumber x = true →
        0 ≤ decimalInt x → now < 2 ^ 63 →
        scanTurn raw0 now werr0 k0 = some o → k = o.store →
        scanTurn raw now werr k =
          some ⟨k,
            ["key: \x1b[35m" ++ key ++ "\x1b[0m has value \x1b[35m" ++ value ++ "\x1b[0m\n"],
            werr⟩)) ∧
    (MaxScanTokenSize ≤ raw.utf8ByteSize →
      scanTurn raw now werr k = none ∧
      ∀ rest i clock werrs, scanLoop (raw :: rest) i clock werrs k = ⟨k, [], none⟩) := by
  refine ⟨fun hshort => ?_, fun hlong => ⟨scanTurn_long _ _ _ _ hlong,
    fun rest i clock werrs => scanLoop_long _ _ _ _ _ _ hlong⟩⟩
  have hF := Fields_dropCR raw
  have hline := handleLine_get (dropCR raw) now werr k (by rw [hF, h]; simp)
    (by rw [hF, h]; rfl)
  simp only [hF, h, List.getD_cons_succ, List.getD_cons_zero] at hline
  have hfound : ∀ v, (k.Get key now).2 = (v, true) →
      scanTurn raw now werr k =
        some ⟨(k.Get key now).1,
          ["key: \x1b[35m" ++ key ++ "\x1b[0m has value \x1b[35m" ++ v ++ "\x1b[0m\n"],
          werr⟩ := by
    intro v hv
    rw [scanTurn_short _ _ _ _ hshort, hline, hv]
    simp
  refine ⟨hfound, fun v hv => ?_, ?_⟩
  · rw [scanTurn_short _ _ _ _ hshort, hline, hv]
    simp
  · intro k0 raw0 werr0 value x o h0 hd hnn hnow ho hk
    obtain ⟨_, ho2⟩ := scanTurn_some raw0 now werr0 k0 o ho
    have hF0 := Fields_dropCR raw0
    have hget : k.Get key now = (k, (value, true)) := by
      by_cases hval : decimalInt x < 2 ^ 63
      · rw [hk, ho2, handleLine_set_decimal (dropCR raw0) now werr0 k0 key value x
          (by rw [hF0, h0]) hd hnn hval]
        exact Get_Set_same_time k0 key value _ now (by unfold uint64Size; omega)
      · rw [hk, ho2, handleLine_set_four (dropCR raw0) now werr0 k0 key value x
          (by rw [hF0, h0]), ParseInt_decimal_large x hd (by omega)]
        have hclamp : toUint64 (2 ^ 63 - 1) = 2 ^ 63 - 1 := by decide
        simp only [hclamp]
        exact Get_Set_same_time k0 key value _ now (by unfold uint64Size; omega)
    have := hfound value (by rw [hget])
    rw [hget] at this
    exact this

theorem get_line_response_witness :
    scanTurn "get key5" 100 none (NewKVStor.Set "key5" "value5" 3600 100) =
      some ⟨NewKVStor.Set "key5" "value5" 3600 100,
        ["key: \x1b[35m" ++ "key5" ++ "\x1b[0m has value \x1b[35m" ++ "value5" ++ "\x1b[0m\n"],
        none⟩ :=
  ((get_line_response "get key5" 100 none (NewKVStor.Set "key5" "value5" 3600 100) "key5"
      (by decide)).1 (by decide)).2.2
    NewKVStor "set key5 value5 3600" none "value5" "3600"
    (handleLine "set key5 value5 3600" 100 none NewKVStor)
    (by decide) (by decide) (by decide) (by decide) (by decide) (by decide)

/-! ## The handler: failed writes -/

/-- The panic of a line of at most four fields: none when its write succeeds, the
error of the write after the response of a verb, and the text of
`writeUsageOrHandleUnexpectedError` after the usage response. -/
theorem handleLine_failure (request : String) (now : Nat) (werr : Option String)
    (k : KVStor) (hlen : (Fields request).length ≤ 4) :
    (handleLine request now werr k).failure =
      werr.map (fun e =>
        if (Fields request).head? = some "set" ∨ (Fields request).head? = some "get" ∨
            (Fields request).head? = some "delete"
        then e else "something weird has happened.") := by
  by_cases hs : (Fields request).head? = some "set"
  · rw [handleLine_set request now _ k hlen hs]
    cases werr <;> simp [hs]
  · by_cases hg : (Fields request).head? = some "get"
    · rw [handleLine_get request now _ k hlen hg]
      cases werr <;> simp [hg]
    · by_cases hd : (Fields request).head? = some "delete"
      · rw [handleLine_delete request now _ k hlen hd]
        split <;> cases werr <;> simp [hd]
      · rw [handleLine_other request now _ k hlen hs hg hd]
        cases werr <;> simp [hs, hg, hd]

/-- The loop on a line that is scanned. -/
theorem scanLoop_cons_short (raw : String) (rest : List String) (i : Nat)
    (clock : Nat → Nat) (werr : Nat → Option String) (k : KVStor)
    (h : raw.utf8ByteSize < MaxScanTokenSize) :
    scanLoop (raw :: rest) i clock werr k =
      match (handleLine (dropCR raw) (clock i) (werr i) k).failure with
      | some e =>
        ⟨(handleLine (dropCR raw) (clock i) (werr i) k).store,
          (handleLine (dropCR raw) (clock i) (werr i) k).writes, some e⟩
      | none =>
        ⟨(scanLoop rest (i + 1) clock werr
            (handleLine (dropCR raw) (clock i) (werr i) k).store).store,
          (handleLine (dropCR raw) (clock i) (werr i) k).writes ++
            (scanLoop rest (i + 1) clock werr
              (handleLine (dropCR raw) (clock i) (werr i) k).store).writes,
          (scanLoop rest (i + 1) clock werr
            (handleLine (dropCR raw) (clock i) (werr i) k).store).failure⟩ := by
  rw [scanLoop, scanTurn_short raw _ _ k h]

/-- The loop over lines that follow lines handled without a panic. -/
theorem scanLoop_append (pre lines : List String) (i : Nat) (clock : Nat → Nat)
    (werr : Nat → Option String) (k : KVStor)
    (hpre : ∀ l ∈ pre, l.utf8ByteSize < MaxScanTokenSize)
    (hok : (scanLoop pre i clock werr k).failure = none) :
    scanLoop (pre ++ lines) i clock werr k =
      ⟨(scanLoop lines (i + pre.length) clock werr (scanLoop pre i clock werr k).store).store,
        (scanLoop pre i clock werr k).writes ++
          (scanLoop lines (i + pre.length) clock werr (scanLoop pre i clock werr k).store).writes,
        (scanLoop lines (i + pre.length) clock werr
          (scanLoop pre i clock werr k).store).failure⟩ := by
  induction pre generalizing i k with
  | nil =>
    have h0 : scanLoop [] i clock werr k = ⟨k, [], none⟩ := by rw [scanLoop]
    simp [h0]
  | cons l pre ih =>
    have hl := hpre l (List.mem_cons_self _ _)
    have hstep := scanLoop_cons_short l pre i clock werr k hl
    have hstep2 := scanLoop_cons_short l (pre ++ lines) i clock werr k hl
    rw [List.cons_append, hstep2]
    rw [hstep] at hok ⊢
    cases hf : (handleLine (dropCR l) (clock i) (werr i) k).failure with
    | some e => rw [hf] at hok; exact absurd hok (by simp)
    | none =>
      rw [hf] at hok
      simp only at hok ⊢
      rw [ih (i + 1) _ (fun l hl => hpre l (List.mem_cons_of_mem _ hl)) hok]
      simp only [List.length_cons, List.append_assoc]
      have hidx : i + 1 + pre.length = i + (pre.length + 1) := by omega
      rw [hidx]

/-- C17, as stated, fails: when the write of the response to `get a` returns the
error "broken pipe", the handler panics with that error; the connection is closed
and the line behind it is not handled. -/
theorem failed_write_counterexample :
    HandleRequest "get a\nget b\n" (fun _ => 100) (fun _ => some "broken pipe") NewKVStor =
      { store := NewKVStor,
        writes := ["key: \x1b[35ma\x1b[0m doesnt't exist or expired\n"],
        closed := true, failure := some "broken pipe" } := by
  decide

/-- C17, amended: when the write of the response to a line fails with an error
`e`, the lines before it having been handled without a panic, the handler stops
processing the connection (the lines behind are not handled: the call's writes are
those of the earlier lines and of this line) and closes it (the deferred
`conn.Close()`), but it does so by panicking: with `e` itself after the response
of a `set`, `get` or `delete` line, and with "something weird has happened." after
the usage response. Nothing recovers the panic that leaves `HandleRequest`, so the
failed write ends the process. -/
theorem failed_write_panics (stream : String) (pre : List String) (raw : String)
    (rest : List String) (clock : Nat → Nat) (werr : Nat → Option String) (e : String)
    (k : KVStor)
    (hlines : scanLines stream = pre ++ raw :: rest)
    (hpre : ∀ l ∈ pre, l.utf8ByteSize < MaxScanTokenSize)
    (hok : (scanLoop pre 0 clock werr k).failure = none)
    (hshort : raw.utf8ByteSize < MaxScanTokenSize)
    (hlen : (Fields raw).length ≤ 4)
    (he : werr pre.length = some e) :
    (HandleRequest stream clock werr k).closed = true ∧
    (HandleRequest stream clock werr k).failure =
      some (if (Fields raw).head? = some "set" ∨ (Fields raw).head? = some "get" ∨
              (Fields raw).head? = some "delete"
            then e else "something weird has happened.") ∧
    (HandleRequest stream clock werr k).writes =
      (scanLoop pre 0 clock werr k).writes ++
        (handleLine (dropCR raw) (clock pre.length) (some e)
          (scanLoop pre 0 clock werr k).store).writes ∧
    (handleLine (dropCR raw) (clock pre.length) (some e)
      (scanLoop pre 0 clock werr k).store).writes.length = 1 ∧
    (HandleRequest stream clock werr k).store =
      (handleLine (dropCR raw) (clock pre.length) (some e)
        (scanLoop pre 0 clock werr k).store).store := by
  have hF := Fields_dropCR raw
  have hfail := handleLine_failure (dropCR raw) (clock pre.length) (some e)
    (scanLoop pre 0 clock werr k).store (by rw [hF]; exact hlen)
  rw [hF] at hfail
  have hone := handleLine_one_write (dropCR raw) (clock pre.length) (some e)
    (scanLoop pre 0 clock werr k).store (by rw [hF]; exact hlen)
  have hloop : scanLoop (raw :: rest) (0 + pre.length) clock werr
      (scanLoop pre 0 clock werr k).store =
      ⟨(handleLine (dropCR raw) (clock pre.length) (some e)
          (scanLoop pre 0 clock werr k).store).store,
        (handleLine (dropCR raw) (clock pre.length) (some e)
          (scanLoop pre 0 clock werr k).store).writes,
        some (if (Fields raw).head? = some "set" ∨ (Fields raw).head? = some "get" ∨
              (Fields raw).head? = some "delete"
            then e else "something weird has happened.")⟩ := by
    rw [scanLoop_cons_short raw rest _ clock werr _ hshort]
    simp only [Nat.zero_add, he]
    rw [hfail]
    rfl
  unfold HandleRequest
  rw [hlines, scanLoop_append pre (raw :: rest) 0 clock werr k hpre hok, hloop]
  exact ⟨rfl, rfl, rfl, hone, rfl⟩

theorem failed_write_panics_witness :
    (HandleRequest "set a 1\nget a\nget b\n" (fun _ => 100)
        (fun i => if i = 1 then some "broken pipe" else none) NewKVStor).failure =
      some (if (Fields "get a").head? = some "set" ∨ (Fields "get a").head? = some "get" ∨
              (Fields "get a").head? = some "delete"
            then "broken pipe" else "something weird has happened.") :=
  (failed_write_panics "set a 1\nget a\nget b\n" ["set a 1"] "get a" ["get b"] (fun _ => 100)
    (fun i => if i = 1 then some "broken pipe" else none) "broken pipe" NewKVStor
    (by decide) (by decide) (by decide) (by decide) (by decide) (by decide)).2.1

end Kvstor
